import Mathlib

/-!
Verification development for the IR Tree Engine of the builder-ui repository.

The definitions below are a shallow embedding of the TypeScript sources
`src/packages/runtime-engine/src/ir/component-schema.ts`,
`src/packages/runtime-engine/src/ir/validator.ts` and the utility half of
`src/packages/runtime-engine/src/ir/renderer.ts` (the functions
`createIRComponent`, `cloneIRComponent`, `findComponentById`,
`addChildComponent`, `addSlotComponent`, `removeComponent`, `moveComponent`,
`getAllComponentIds`, `updateComponentProps`, `getComponentDepth`).

Modelling conventions:
* JS objects used as string-keyed records become association lists that keep
  insertion order (JS object iteration order for string keys).
* `undefined` optional fields become `Option`; a JS empty array `[]` is
  `some nil` (it is truthy in JS, unlike `undefined`).
* In-place mutation through a reference returned by `findComponentById`
  becomes a pure rewrite of the tree at the position of the first match in
  `findComponentById`'s search order (`updateFirstById` below).
* Machine integers (array indices, `maxChildren`) become `Int`/`Nat`.
-/

set_option maxHeartbeats 1000000

namespace BuilderIR

/-- A JS property value as used by the source's `props` records:
strings, booleans and (integer) numbers. -/
inductive Val where
  | str (s : String)
  | bool (b : Bool)
  | num (n : Int)
deriving DecidableEq, Repr

/-- JS truthiness of a property value (`""`, `false` and `0` are falsy). -/
def Val.truthy : Val → Bool
  | .str s => !(s == "")
  | .bool b => b
  | .num n => !(n == 0)

/-- How JS template literals stringify a property value. -/
def Val.toJsString : Val → String
  | .str s => s
  | .bool b => if b then "true" else "false"
  | .num n => toString n

/-- A JS object holding property values: insertion-ordered association list. -/
abbrev Props := List (String × Val)

/-- JS property lookup `m[k]` on a props record. -/
def propLookup (m : Props) (k : String) : Option Val :=
  (m.find? (fun kv => kv.1 == k)).map (fun kv => kv.2)

/-- JS assignment semantics used by object spread: overwrite the value of an
existing key in place (keeping its position), otherwise append the key. -/
def recordSet (m : Props) (k : String) (v : Val) : Props :=
  if m.any (fun kv => kv.1 == k) then
    m.map (fun kv => if kv.1 == k then (kv.1, v) else kv)
  else m ++ [(k, v)]

/-- JS object spread `\x7b ...a, ...b \x7d`. -/
def recordMerge (a b : Props) : Props :=
  b.foldl (fun acc kv => recordSet acc kv.1 kv.2) a

mutual
/-- The IR tree node, from `IRBaseComponent` in `types/ir-schema.ts`:
`id`, `type`, optional `props`, optional default-slot `children`,
optional named `slots`. -/
inductive IRComponent where
  | mk (id : String) (type : String) (props : Option Props)
       (children : OptIRList) (slots : OptIRSlots)

/-- `children?: IRComponent[]` — `none` is JS `undefined`, `some l` a real
array (possibly empty, which is truthy in JS). -/
inductive OptIRList where
  | none
  | some (l : IRList)

/-- An array of IR components. -/
inductive IRList where
  | nil
  | cons (head : IRComponent) (tail : IRList)

/-- `slots?: Record<string, IRComponent[]>` — `none` is JS `undefined`. -/
inductive OptIRSlots where
  | none
  | some (s : IRSlots)

/-- The `slots` record: insertion-ordered association from slot name to the
array of components in that slot. -/
inductive IRSlots where
  | nil
  | cons (name : String) (comps : IRList) (tail : IRSlots)
end

deriving instance DecidableEq for IRComponent
deriving instance DecidableEq for OptIRList
deriving instance DecidableEq for IRList
deriving instance DecidableEq for OptIRSlots
deriving instance DecidableEq for IRSlots

def IRComponent.id : IRComponent → String
  | .mk i _ _ _ _ => i

def IRComponent.type : IRComponent → String
  | .mk _ t _ _ _ => t

def IRComponent.props : IRComponent → Option Props
  | .mk _ _ p _ _ => p

def IRComponent.children : IRComponent → OptIRList
  | .mk _ _ _ c _ => c

def IRComponent.slots : IRComponent → OptIRSlots
  | .mk _ _ _ _ s => s

def IRList.length : IRList → Nat
  | .nil => 0
  | .cons _ t => t.length + 1

def IRList.isNil : IRList → Bool
  | .nil => true
  | .cons _ _ => false

/-- `array.push(c)` — append at the end. -/
def IRList.push : IRList → IRComponent → IRList
  | .nil, c => .cons c .nil
  | .cons h t, c => .cons h (t.push c)

/-- `array.splice(i, 0, c)` — insert before index `i`
(clamped to the end, as JS splice clamps). -/
def IRList.insertAt : IRList → Nat → IRComponent → IRList
  | l, 0, c => .cons c l
  | .nil, _ + 1, c => .cons c .nil
  | .cons h t, n + 1, c => .cons h (t.insertAt n c)

/-- `array.splice(i, 1)` — delete the element at index `i`. -/
def IRList.eraseIdx : IRList → Nat → IRList
  | .nil, _ => .nil
  | .cons _ t, 0 => t
  | .cons h t, n + 1 => .cons h (t.eraseIdx n)

/-- `array.findIndex(c => c.id === targetId)`. -/
def IRList.findIdxById : IRList → String → Option Nat
  | .nil, _ => Option.none
  | .cons h t, i =>
    if h.id = i then Option.some 0 else (t.findIdxById i).map (fun n => n + 1)

/-- Record lookup `slots[name]` on the slots object. -/
def IRSlots.lookup : IRSlots → String → Option IRList
  | .nil, _ => Option.none
  | .cons n cs t, k => if n = k then Option.some cs else t.lookup k

/-- Record update `slots[name] = v` for a name already present
(first occurrence). -/
def IRSlots.set : IRSlots → String → IRList → IRSlots
  | .nil, _, _ => .nil
  | .cons n cs t, k, v => if n = k then .cons n v t else .cons n cs (t.set k v)

/-- Record update `slots[name] = v` for a fresh name: JS appends the new key
at the end of the iteration order. -/
def IRSlots.append : IRSlots → String → IRList → IRSlots
  | .nil, k, v => .cons k v .nil
  | .cons n cs t, k, v => .cons n cs (t.append k v)

/-! ## Schema registry — `component-schema.ts` -/

/-- `layout?: 'horizontal' | 'vertical' | 'none'`. -/
inductive IRLayout where
  | horizontal
  | vertical
  | none
deriving DecidableEq, Repr

/-- `IRComponentTypeDefinition` from `types/ir-schema.ts`.  `maxChildren` is
`number | null | undefined` in TS; `canContain` and `getMaxChildren` treat
`null` and `undefined` identically, so both collapse to `Option.none`. -/
structure IRComponentTypeDefinition where
  type : String
  layout : Option IRLayout
  allowedSlots : List String
  maxChildren : Option Int
  canHaveChildren : Bool
  defaultProps : Option Props
deriving DecidableEq, Repr

/-- `IRComponentSchema`: the `componentTypes` record, insertion-ordered. -/
structure IRComponentSchema where
  componentTypes : List (String × IRComponentTypeDefinition)
deriving DecidableEq, Repr

/-- `DEFAULT_COMPONENT_TYPES` of `component-schema.ts`, verbatim. -/
def DEFAULT_COMPONENT_TYPES : List (String × IRComponentTypeDefinition) :=
  [ ("Row",
      { type := "Row"
        layout := Option.some IRLayout.horizontal
        allowedSlots := ["main"]
        maxChildren := Option.none
        canHaveChildren := true
        defaultProps := Option.some
          [ ("gap", Val.str "md")
          , ("alignItems", Val.str "center")
          , ("justifyContent", Val.str "start") ] })
  , ("Stack",
      { type := "Stack"
        layout := Option.some IRLayout.vertical
        allowedSlots := ["main"]
        maxChildren := Option.none
        canHaveChildren := true
        defaultProps := Option.some
          [ ("gap", Val.str "md")
          , ("alignItems", Val.str "start")
          , ("justifyContent", Val.str "start") ] })
  , ("Button",
      { type := "Button"
        layout := Option.some IRLayout.none
        allowedSlots := ["main", "icon", "content"]
        maxChildren := Option.none
        canHaveChildren := true
        defaultProps := Option.some
          [ ("variant", Val.str "primary")
          , ("size", Val.str "md")
          , ("disabled", Val.bool false) ] }) ]

/-- `DEFAULT_IR_SCHEMA`. -/
def DEFAULT_IR_SCHEMA : IRComponentSchema :=
  { componentTypes := DEFAULT_COMPONENT_TYPES }

/-- `ComponentSchemaHelper.getComponentType`:
`this.schema.componentTypes[type] || null`. -/
def getComponentType (schema : IRComponentSchema) (type : String) :
    Option IRComponentTypeDefinition :=
  (schema.componentTypes.find? (fun kv => kv.1 == type)).map (fun kv => kv.2)

/-- `ComponentSchemaHelper.hasComponentType`:
`type in this.schema.componentTypes`. -/
def hasComponentType (schema : IRComponentSchema) (type : String) : Bool :=
  schema.componentTypes.any (fun kv => kv.1 == type)

/-- `ComponentSchemaHelper.canHaveChildren`:
`componentType?.canHaveChildren ?? false`. -/
def canHaveChildren (schema : IRComponentSchema) (type : String) : Bool :=
  match getComponentType schema type with
  | Option.some d => d.canHaveChildren
  | Option.none => false

/-- `ComponentSchemaHelper.getAllowedSlots`:
`componentType?.allowedSlots ?? []`. -/
def getAllowedSlots (schema : IRComponentSchema) (type : String) : List String :=
  match getComponentType schema type with
  | Option.some d => d.allowedSlots
  | Option.none => []

/-- `ComponentSchemaHelper.isSlotAllowed`:
`allowedSlots.includes(slotName) || allowedSlots.includes('main')`. -/
def isSlotAllowed (schema : IRComponentSchema) (type slotName : String) : Bool :=
  (getAllowedSlots schema type).contains slotName
    || (getAllowedSlots schema type).contains "main"

/-- `ComponentSchemaHelper.getMaxChildren`:
`componentType?.maxChildren ?? null`. -/
def getMaxChildren (schema : IRComponentSchema) (type : String) : Option Int :=
  match getComponentType schema type with
  | Option.some d => d.maxChildren
  | Option.none => Option.none

/-- `ComponentSchemaHelper.getDefaultProps`: a shallow copy of the type's
`defaultProps`, or `\x7b\x7d` when the type or its defaults are absent. -/
def getDefaultProps (schema : IRComponentSchema) (type : String) : Props :=
  match getComponentType schema type with
  | Option.some d =>
    match d.defaultProps with
    | Option.some m => m
    | Option.none => []
  | Option.none => []

/-- `ComponentSchemaHelper.canContain`, translated line by line:
false when either definition is missing; false when the parent cannot have
children; false when `maxChildren` is present (non-null) and `≤ 0`; false for
the hard-coded pair Button ⊃ Row/Stack; true otherwise. -/
def canContain (schema : IRComponentSchema) (parentType childType : String) : Bool :=
  match getComponentType schema parentType, getComponentType schema childType with
  | Option.some parentDef, Option.some _ =>
    if !parentDef.canHaveChildren then false
    else
      match parentDef.maxChildren with
      | Option.some m =>
        if m ≤ 0 then false
        else if parentType == "Button" && (childType == "Row" || childType == "Stack") then false
        else true
      | Option.none =>
        if parentType == "Button" && (childType == "Row" || childType == "Stack") then false
        else true
  | _, _ => false

/-! ## Mutation engine — utility half of `renderer.ts` -/

/-- `cloneIRComponent`: `JSON.parse(JSON.stringify(component))`.  On plain
nested data a deep structural copy is the value itself in a pure model. -/
def cloneIRComponent (component : IRComponent) : IRComponent := component

mutual
/-- `findComponentById`: pre-order depth-first search; the root first, then
the default-slot children in order, then the named slots in record order. -/
def findComponentById (root : IRComponent) (id : String) : Option IRComponent :=
  match root with
  | .mk i t p ch sl =>
    if i = id then Option.some (.mk i t p ch sl)
    else
      match (match ch with
             | OptIRList.none => Option.none
             | OptIRList.some cs => findInList cs id) with
      | Option.some found => Option.some found
      | Option.none =>
        match sl with
        | OptIRSlots.none => Option.none
        | OptIRSlots.some ss => findInSlots ss id

/-- The `for (const child of root.children)` loop of `findComponentById`. -/
def findInList (l : IRList) (id : String) : Option IRComponent :=
  match l with
  | .nil => Option.none
  | .cons h t =>
    match findComponentById h id with
    | Option.some found => Option.some found
    | Option.none => findInList t id

/-- The slots loop of `findComponentById`. -/
def findInSlots (s : IRSlots) (id : String) : Option IRComponent :=
  match s with
  | .nil => Option.none
  | .cons _ cs t =>
    match findInList cs id with
    | Option.some found => Option.some found
    | Option.none => findInSlots t id
end

mutual
/-- Pure rendering of "mutate in place the node that `findComponentById`
returned": rewrite the tree at the position of the first match in
`findComponentById`'s search order, applying `f` there.  Returns whether a
match was found; on failure the tree is returned unchanged. -/
def updateFirstById (root : IRComponent) (id : String)
    (f : IRComponent → IRComponent) : Bool × IRComponent :=
  match root with
  | .mk i t p ch sl =>
    if i = id then (true, f (.mk i t p ch sl))
    else
      match ch with
      | OptIRList.some cs =>
        match updateInList cs id f with
        | (true, cs') => (true, .mk i t p (OptIRList.some cs') sl)
        | (false, _) =>
          match sl with
          | OptIRSlots.some ss =>
            let r := updateInSlots ss id f
            (r.1, .mk i t p ch (OptIRSlots.some r.2))
          | OptIRSlots.none => (false, .mk i t p ch sl)
      | OptIRList.none =>
        match sl with
        | OptIRSlots.some ss =>
          let r := updateInSlots ss id f
          (r.1, .mk i t p ch (OptIRSlots.some r.2))
        | OptIRSlots.none => (false, .mk i t p ch sl)

def updateInList (l : IRList) (id : String)
    (f : IRComponent → IRComponent) : Bool × IRList :=
  match l with
  | .nil => (false, .nil)
  | .cons h t =>
    match updateFirstById h id f with
    | (true, h') => (true, .cons h' t)
    | (false, _) =>
      let r := updateInList t id f
      (r.1, .cons h r.2)

def updateInSlots (s : IRSlots) (id : String)
    (f : IRComponent → IRComponent) : Bool × IRSlots :=
  match s with
  | .nil => (false, .nil)
  | .cons n cs t =>
    match updateInList cs id f with
    | (true, cs') => (true, .cons n cs' t)
    | (false, _) =>
      let r := updateInSlots t id f
      (r.1, .cons n cs r.2)
end

/-- `addChildComponent`: lazily create `children`, then
`splice(index, 0, child)` when `index` is supplied and within `[0, length]`,
else `push`.  Always returns true. -/
def addChildComponent (parent child : IRComponent) (index : Option Int) :
    Bool × IRComponent :=
  match parent with
  | .mk i t p ch sl =>
    let cs := match ch with
      | OptIRList.none => IRList.nil
      | OptIRList.some l => l
    let cs' := match index with
      | Option.some idx =>
        if 0 ≤ idx ∧ idx ≤ (cs.length : Int) then cs.insertAt idx.toNat child
        else cs.push child
      | Option.none => cs.push child
    (true, .mk i t p (OptIRList.some cs') sl)

/-- `addSlotComponent`: lazily create `slots` and the named entry (an existing
entry, even an empty array, is truthy and kept), then splice/push as in
`addChildComponent`.  Always returns true. -/
def addSlotComponent (parent : IRComponent) (slotName : String)
    (child : IRComponent) (index : Option Int) : Bool × IRComponent :=
  match parent with
  | .mk i t p ch sl =>
    let ss := match sl with
      | OptIRSlots.none => IRSlots.nil
      | OptIRSlots.some s => s
    let ss2 := match ss.lookup slotName with
      | Option.none => ss.append slotName IRList.nil
      | Option.some _ => ss
    let arr := match ss2.lookup slotName with
      | Option.some a => a
      | Option.none => IRList.nil
    let arr' := match index with
      | Option.some idx =>
        if 0 ≤ idx ∧ idx ≤ (arr.length : Int) then arr.insertAt idx.toNat child
        else arr.push child
      | Option.none => arr.push child
    (true, .mk i t p ch (OptIRSlots.some (ss2.set slotName arr')))

mutual
/-- `removeComponent`, translated with the source's exact search order: at
each node, scan the direct children for the id and splice the hit; else
recurse into each child in order; else, per named slot in record order, scan
the direct members (splicing and pruning the entry when it empties) and then
recurse into the members.  Returns true iff something was removed; on failure
the tree is returned unchanged. -/
def removeComponent (root : IRComponent) (targetId : String) : Bool × IRComponent :=
  match root with
  | .mk i t p ch sl =>
    match ch with
    | OptIRList.some cs =>
      match cs.findIdxById targetId with
      | Option.some idx => (true, .mk i t p (OptIRList.some (cs.eraseIdx idx)) sl)
      | Option.none =>
        match removeInList cs targetId with
        | (true, cs') => (true, .mk i t p (OptIRList.some cs') sl)
        | (false, _) =>
          match sl with
          | OptIRSlots.some ss =>
            let r := removeInSlots ss targetId
            (r.1, .mk i t p ch (OptIRSlots.some r.2))
          | OptIRSlots.none => (false, .mk i t p ch sl)
    | OptIRList.none =>
      match sl with
      | OptIRSlots.some ss =>
        let r := removeInSlots ss targetId
        (r.1, .mk i t p ch (OptIRSlots.some r.2))
      | OptIRSlots.none => (false, .mk i t p ch sl)

/-- The `for (const child of root.children)` recursion of `removeComponent`. -/
def removeInList (l : IRList) (targetId : String) : Bool × IRList :=
  match l with
  | .nil => (false, .nil)
  | .cons h t =>
    match removeComponent h targetId with
    | (true, h') => (true, .cons h' t)
    | (false, _) =>
      let r := removeInList t targetId
      (r.1, .cons h r.2)

/-- The slots loop of `removeComponent`: per entry, direct scan (with pruning
of an emptied entry), then recursion into the members. -/
def removeInSlots (s : IRSlots) (targetId : String) : Bool × IRSlots :=
  match s with
  | .nil => (false, .nil)
  | .cons n cs t =>
    match cs.findIdxById targetId with
    | Option.some idx =>
      let cs' := cs.eraseIdx idx
      if cs'.isNil then (true, t) else (true, .cons n cs' t)
    | Option.none =>
      match removeInList cs targetId with
      | (true, cs') => (true, .cons n cs' t)
      | (false, _) =>
        let r := removeInSlots t targetId
        (r.1, .cons n cs r.2)
end

/-- `position` argument of `moveComponent`. -/
inductive MovePositionType where
  | children
  | slot
deriving DecidableEq, Repr

structure MovePosition where
  type : MovePositionType
  slotName : Option String
  index : Option Int
deriving DecidableEq, Repr

/-- `moveComponent`: find the node, deep-clone it, remove the original, find
the new parent in the post-removal tree, and attach the clone there (named
slot when `position.type === 'slot'` and `position.slotName` is truthy,
default slot otherwise).  Each failing step returns false, keeping the
mutations already performed. -/
def moveComponent (root : IRComponent) (componentId newParentId : String)
    (position : Option MovePosition) : Bool × IRComponent :=
  match findComponentById root componentId with
  | Option.none => (false, root)
  | Option.some component =>
    let clonedComponent := cloneIRComponent component
    match removeComponent root componentId with
    | (false, r) => (false, r)
    | (true, r1) =>
      match findComponentById r1 newParentId with
      | Option.none => (false, r1)
      | Option.some newParent =>
        let idx := match position with
          | Option.some pos => pos.index
          | Option.none => Option.none
        let slotChoice : Option String := match position with
          | Option.some pos =>
            match pos.type, pos.slotName with
            | MovePositionType.slot, Option.some s =>
              if s == "" then Option.none else Option.some s
            | _, _ => Option.none
          | Option.none => Option.none
        match slotChoice with
        | Option.some s =>
          ((addSlotComponent newParent s clonedComponent idx).1,
           (updateFirstById r1 newParentId
             (fun np => (addSlotComponent np s clonedComponent idx).2)).2)
        | Option.none =>
          ((addChildComponent newParent clonedComponent idx).1,
           (updateFirstById r1 newParentId
             (fun np => (addChildComponent np clonedComponent idx).2)).2)

/-- `updateComponentProps`: find the node, then
`component.props = \x7b ...component.props, ...newProps \x7d`. -/
def updateComponentProps (root : IRComponent) (componentId : String)
    (newProps : Props) : Bool × IRComponent :=
  match findComponentById root componentId with
  | Option.none => (false, root)
  | Option.some _ =>
    updateFirstById root componentId (fun c =>
      match c with
      | .mk i t p ch sl =>
        .mk i t
          (Option.some (recordMerge
            (match p with | Option.some m => m | Option.none => []) newProps))
          ch sl)

mutual
/-- `getAllComponentIds`: the root id, then all ids of the default-slot
children in order, then all ids of the named-slot members. -/
def getAllComponentIds (root : IRComponent) : List String :=
  match root with
  | .mk i _ _ ch sl =>
    i :: ((match ch with
           | OptIRList.none => []
           | OptIRList.some cs => allIdsList cs)
          ++ (match sl with
              | OptIRSlots.none => []
              | OptIRSlots.some ss => allIdsSlots ss))

def allIdsList : IRList → List String
  | .nil => []
  | .cons h t => getAllComponentIds h ++ allIdsList t

def allIdsSlots : IRSlots → List String
  | .nil => []
  | .cons _ cs t => allIdsList cs ++ allIdsSlots t
end

mutual
/-- The inner `searchDepth` of `getComponentDepth`: the node itself at
`depth`, else the children then the slot members at `depth + 1`; `-1` when
absent. -/
def searchDepth (c : IRComponent) (targetId : String) (depth : Int) : Int :=
  match c with
  | .mk i _ _ ch sl =>
    if i = targetId then depth
    else
      let found := match ch with
        | OptIRList.none => -1
        | OptIRList.some cs => searchDepthList cs targetId (depth + 1)
      if found ≠ -1 then found
      else
        match sl with
        | OptIRSlots.none => -1
        | OptIRSlots.some ss => searchDepthSlots ss targetId (depth + 1)

def searchDepthList : IRList → String → Int → Int
  | .nil, _, _ => -1
  | .cons h t, targetId, depth =>
    let found := searchDepth h targetId depth
    if found ≠ -1 then found else searchDepthList t targetId depth

def searchDepthSlots : IRSlots → String → Int → Int
  | .nil, _, _ => -1
  | .cons _ cs t, targetId, depth =>
    let found := searchDepthList cs targetId depth
    if found ≠ -1 then found else searchDepthSlots t targetId depth
end

/-- `getComponentDepth`: depth of the first match in search order, root at
depth 0; `-1` when the id is absent. -/
def getComponentDepth (root : IRComponent) (targetId : String) : Int :=
  searchDepth root targetId 0

/-- `IROptions` from `types/ir-schema.ts` (`idPfx` models `idPrefix`). -/
structure IROptions where
  validateOnChange : Option Bool
  autoGenerateIds : Option Bool
  idPfx : Option String
  preserveOrder : Option Bool
deriving DecidableEq, Repr

/-- The ambient JS state `createIRComponent` reads: `Date.now()` and the
five base-36 digits of `Math.random().toString(36).substr(2, 5)`. -/
structure JsEnv where
  now : Nat
  random36 : String
deriving DecidableEq, Repr

/-- A base-36 digit, lower-case, as `Number.prototype.toString(36)` emits. -/
def digit36 (n : Nat) : Char :=
  if n < 10 then Char.ofNat (48 + n) else Char.ofNat (87 + n)

/-- `n.toString(36)` for a natural number. -/
def toBase36Core (n : Nat) : List Char :=
  if n < 36 then [digit36 n]
  else toBase36Core (n / 36) ++ [digit36 (n % 36)]
termination_by n
decreasing_by
  exact Nat.div_lt_self (by omega) (by omega)

def toBase36 (n : Nat) : String := String.mk (toBase36Core n)

/-- `generateComponentId(type, prefix?)` from `renderer.ts` (`pfx` models the
source's second parameter): `prefix || 'component'`, hyphen, lower-cased
type, hyphen, base-36 timestamp, hyphen, random suffix. -/
def generateComponentId (env : JsEnv) (type : String) (pfx : Option String) :
    String :=
  let actualPfx := match pfx with
    | Option.some p => if p == "" then "component" else p
    | Option.none => "component"
  actualPfx ++ "-" ++ type.toLower ++ "-" ++ toBase36 env.now ++ "-" ++ env.random36

/-- `createIRComponent`: id generated unless `options.autoGenerateIds` is
`false` (then `type.toLowerCase() + '-' + Date.now()`), props are
`props || \x7b\x7d`, and the hard-coded type switch seeds `children: []` for
`'Row'`/`'Stack'`, `children: []` plus `slots: \x7b\x7d` for `'Button'`, and
neither for any other type tag. -/
def createIRComponent (env : JsEnv) (type : String) (props : Option Props)
    (options : Option IROptions) : IRComponent :=
  let auto := match options with
    | Option.some o => o.autoGenerateIds
    | Option.none => Option.none
  let id := if auto ≠ Option.some false then
      generateComponentId env type (match options with
        | Option.some o => o.idPfx
        | Option.none => Option.none)
    else type.toLower ++ "-" ++ toString env.now
  let p := Option.some (match props with
    | Option.some m => m
    | Option.none => [])
  match type with
  | "Row" => IRComponent.mk id type p (OptIRList.some IRList.nil) OptIRSlots.none
  | "Stack" => IRComponent.mk id type p (OptIRList.some IRList.nil) OptIRSlots.none
  | "Button" =>
    IRComponent.mk id type p (OptIRList.some IRList.nil) (OptIRSlots.some IRSlots.nil)
  | _ => IRComponent.mk id type p OptIRList.none OptIRSlots.none

/-! ## Validator — `validator.ts` -/

inductive IRValidationErrorType where
  | INVALID_TYPE
  | INVALID_SLOT
  | INVALID_NESTING
  | MISSING_REQUIRED_PROP
deriving DecidableEq, Repr

inductive IRValidationWarningType where
  | DEPRECATED_PROP
  | PERFORMANCE_CONCERN
  | ACCESSIBILITY_ISSUE
deriving DecidableEq, Repr

structure IRValidationError where
  componentId : String
  message : String
  type : IRValidationErrorType
  path : List String
deriving DecidableEq, Repr

structure IRValidationWarning where
  componentId : String
  message : String
  type : IRValidationWarningType
  path : List String
deriving DecidableEq, Repr

structure IRValidationResult where
  isValid : Bool
  errors : List IRValidationError
  warnings : List IRValidationWarning
deriving DecidableEq, Repr

/-- `IRValidator.validateComponentStructure`: a falsy (empty) `id` or `type`
string yields a `MISSING_REQUIRED_PROP` error (the model's fields are always
strings, so the `typeof` halves of the source's checks cannot fire). -/
def validateComponentStructure (id type : String) (path : List String) :
    List IRValidationError :=
  (if id == "" then
    [⟨"unknown", "Component must have a valid string ID",
      IRValidationErrorType.MISSING_REQUIRED_PROP, path⟩]
   else [])
  ++ (if type == "" then
    [⟨(if id == "" then "unknown" else id),
      "Component must have a valid string type",
      IRValidationErrorType.MISSING_REQUIRED_PROP, path⟩]
   else [])

/-- `IRValidator.validateLayoutProps` (warnings only). -/
def validateLayoutProps (type : String) (props? : Option Props)
    (id : String) (path : List String) : List IRValidationWarning :=
  if !(type == "Row" || type == "Stack") then []
  else
    match props? with
    | Option.none => []
    | Option.some props =>
      let alignW := match propLookup props "alignItems" with
        | Option.some v =>
          if v.truthy && !(match v with
              | Val.str s => ["start", "center", "end", "stretch"].contains s
              | _ => false) then
            [⟨id, "Invalid alignItems value: " ++ v.toJsString
                ++ ". Should be one of: start, center, end, stretch",
              IRValidationWarningType.DEPRECATED_PROP, path⟩]
          else []
        | Option.none => []
      let justifyW := match propLookup props "justifyContent" with
        | Option.some v =>
          if v.truthy && !(match v with
              | Val.str s => ["start", "center", "end", "space-between",
                  "space-around", "space-evenly"].contains s
              | _ => false) then
            [⟨id, "Invalid justifyContent value: " ++ v.toJsString,
              IRValidationWarningType.DEPRECATED_PROP, path⟩]
          else []
        | Option.none => []
      let gapW := match propLookup props "gap" with
        | Option.some (Val.str s) =>
          if !(s == "") && !(["sm", "md", "lg"].contains s) then
            [⟨id, "Gap value \x27" ++ s ++ "\x27 should be one of: sm, md, lg",
              IRValidationWarningType.DEPRECATED_PROP, path⟩]
          else []
        | _ => []
      alignW ++ justifyW ++ gapW

/-- `IRValidator.validateButtonProps` (warnings only): a truthy non-string
`variant`/`size` is flagged. -/
def validateButtonProps (type : String) (props? : Option Props)
    (id : String) (path : List String) : List IRValidationWarning :=
  if !(type == "Button") then []
  else
    match props? with
    | Option.none => []
    | Option.some props =>
      let variantW := match propLookup props "variant" with
        | Option.some v =>
          if v.truthy && (match v with | Val.str _ => false | _ => true) then
            [⟨id, "Invalid button variant: " ++ v.toJsString,
              IRValidationWarningType.DEPRECATED_PROP, path⟩]
          else []
        | Option.none => []
      let sizeW := match propLookup props "size" with
        | Option.some v =>
          if v.truthy && (match v with | Val.str _ => false | _ => true) then
            [⟨id, "Invalid button size: " ++ v.toJsString,
              IRValidationWarningType.DEPRECATED_PROP, path⟩]
          else []
        | Option.none => []
      variantW ++ sizeW

/-- `IRValidator.validateProps` / `validateTypeSpecificProps`. -/
def validatePropsPart (schema : IRComponentSchema) (type : String)
    (props? : Option Props) (id : String) (path : List String) :
    List IRValidationWarning :=
  match props? with
  | Option.none => []
  | Option.some _ =>
    match getComponentType schema type with
    | Option.none => []
    | Option.some _ =>
      if type == "Row" || type == "Stack" then
        validateLayoutProps type props? id path
      else if type == "Button" then
        validateButtonProps type props? id path
      else []

mutual
/-- `IRValidator.validateComponent`: an unregistered type records one
`INVALID_TYPE` error and returns at once (children and slots are not walked);
otherwise structure, children, slots and props are checked in that order,
accumulating errors and warnings. -/
def validateComponent (schema : IRComponentSchema) (c : IRComponent)
    (path : List String) : List IRValidationError × List IRValidationWarning :=
  match c with
  | .mk i t p ch sl =>
    let currentPath := path ++ [i]
    if !(hasComponentType schema t) then
      ([⟨i, "Unknown component type: " ++ t,
         IRValidationErrorType.INVALID_TYPE, currentPath⟩], [])
    else
      let se := validateComponentStructure i t currentPath
      let cr := validateChildrenPart schema i t ch currentPath
      let sr := validateSlotsPart schema i t sl currentPath
      let pw := validatePropsPart schema t p i currentPath
      (se ++ cr.1 ++ sr.1, cr.2 ++ sr.2 ++ pw)

/-- `IRValidator.validateChildren`. -/
def validateChildrenPart (schema : IRComponentSchema) (id type : String)
    (ch : OptIRList) (path : List String) :
    List IRValidationError × List IRValidationWarning :=
  match ch with
  | OptIRList.none => ([], [])
  | OptIRList.some cs =>
    if !(canHaveChildren schema type) then
      ([⟨id, "Component type \x27" ++ type ++ "\x27 cannot have children",
         IRValidationErrorType.INVALID_NESTING, path⟩], [])
    else
      let maxErr := match getMaxChildren schema type with
        | Option.some m =>
          if (cs.length : Int) > m then
            [⟨id, "Component \x27" ++ type ++ "\x27 can have maximum "
                ++ toString m ++ " children, but has " ++ toString cs.length,
              IRValidationErrorType.INVALID_NESTING, path⟩]
          else []
        | Option.none => []
      let r := validateChildList schema type cs 0 path
      (maxErr ++ r.1, r.2)

/-- The indexed `forEach` over children in `validateChildren`. -/
def validateChildList (schema : IRComponentSchema) (parentType : String)
    (l : IRList) (index : Nat) (path : List String) :
    List IRValidationError × List IRValidationWarning :=
  match l with
  | .nil => ([], [])
  | .cons child t =>
    let childPath := path ++ ["children[" ++ toString index ++ "]"]
    let contErr :=
      if (!(child.id == "")) && !(canContain schema parentType child.type) then
        [⟨child.id, "Component \x27" ++ child.type
            ++ "\x27 cannot be contained in \x27" ++ parentType ++ "\x27",
          IRValidationErrorType.INVALID_NESTING, childPath⟩]
      else []
    let r := validateComponent schema child childPath
    let rest := validateChildList schema parentType t (index + 1) path
    (contErr ++ r.1 ++ rest.1, r.2 ++ rest.2)

/-- `IRValidator.validateSlots`. -/
def validateSlotsPart (schema : IRComponentSchema) (id type : String)
    (sl : OptIRSlots) (path : List String) :
    List IRValidationError × List IRValidationWarning :=
  match sl with
  | OptIRSlots.none => ([], [])
  | OptIRSlots.some ss => validateSlotEntries schema id type ss path

/-- The `Object.entries` loop of `validateSlots`: a disallowed slot name
records an `INVALID_SLOT` error and skips that slot's members (the `return`
inside the `forEach` callback); other entries get their members checked. -/
def validateSlotEntries (schema : IRComponentSchema) (id type : String)
    (ss : IRSlots) (path : List String) :
    List IRValidationError × List IRValidationWarning :=
  match ss with
  | .nil => ([], [])
  | .cons name cs t =>
    let slotPath := path ++ ["slots." ++ name]
    let here :=
      if !(isSlotAllowed schema type name) then
        ([⟨id, "Slot \x27" ++ name ++ "\x27 is not allowed for component type \x27"
            ++ type ++ "\x27. Allowed slots: "
            ++ String.intercalate ", " (getAllowedSlots schema type),
          IRValidationErrorType.INVALID_SLOT, slotPath⟩], ([] : List IRValidationWarning))
      else validateSlotMembers schema type name cs 0 slotPath
    let rest := validateSlotEntries schema id type t path
    (here.1 ++ rest.1, here.2 ++ rest.2)

/-- The indexed `forEach` over the members of one slot. -/
def validateSlotMembers (schema : IRComponentSchema) (parentType slotName : String)
    (l : IRList) (index : Nat) (slotPath : List String) :
    List IRValidationError × List IRValidationWarning :=
  match l with
  | .nil => ([], [])
  | .cons sc t =>
    let memberPath := slotPath ++ ["[" ++ toString index ++ "]"]
    let contErr :=
      if (!(sc.id == "")) && !(canContain schema parentType sc.type) then
        [⟨sc.id, "Component \x27" ++ sc.type ++ "\x27 cannot be placed in slot \x27"
            ++ slotName ++ "\x27 of \x27" ++ parentType ++ "\x27",
          IRValidationErrorType.INVALID_NESTING, memberPath⟩]
      else []
    let r := validateComponent schema sc memberPath
    let rest := validateSlotMembers schema parentType slotName t (index + 1) slotPath
    (contErr ++ r.1 ++ rest.1, r.2 ++ rest.2)
end

/-- `IRValidator.validate` (with its default empty path): `isValid` iff the
error list is empty. -/
def validate (schema : IRComponentSchema) (component : IRComponent) :
    IRValidationResult :=
  let r := validateComponent schema component []
  { isValid := r.1.isEmpty, errors := r.1, warnings := r.2 }

/-! ## Measures and invariants used by the claims -/

/-- Ids strictly below the root: the tail of `getAllComponentIds`. -/
def subtreeIds : IRComponent → List String
  | .mk _ _ _ ch sl =>
    (match ch with
     | OptIRList.none => []
     | OptIRList.some cs => allIdsList cs)
    ++ (match sl with
        | OptIRSlots.none => []
        | OptIRSlots.some ss => allIdsSlots ss)

/-- Number of nodes in the tree carrying the given id. -/
def countId (c : IRComponent) (id : String) : Nat :=
  (getAllComponentIds c).count id

/-- Whether some node of the tree (the root included) carries the id. -/
def memberId (c : IRComponent) (id : String) : Bool :=
  (getAllComponentIds c).contains id

/-- Whether some node strictly below the root carries the id. -/
def memberIdBelow (c : IRComponent) (id : String) : Bool :=
  (subtreeIds c).contains id

mutual
/-- The §3 invariant "slots never holds empty arrays", checked recursively
over the whole tree. -/
def noEmptySlots : IRComponent → Bool
  | .mk _ _ _ ch sl =>
    (match ch with
     | OptIRList.none => true
     | OptIRList.some cs => noEmptySlotsList cs)
    && (match sl with
        | OptIRSlots.none => true
        | OptIRSlots.some ss => noEmptySlotsSlots ss)

def noEmptySlotsList : IRList → Bool
  | .nil => true
  | .cons h t => noEmptySlots h && noEmptySlotsList t

def noEmptySlotsSlots : IRSlots → Bool
  | .nil => true
  | .cons _ cs t => (!cs.isNil) && noEmptySlotsList cs && noEmptySlotsSlots t
end

/-! ## Spec-worded removal, for comparison with `removeComponent`

The spec describes `remove` as a "depth-first search (same order as
`findById`) removing the first structural match".  The following definition
follows those words: it visits nodes in exactly `findComponentById`'s
pre-order (each child before that child's subtree, default-slot children
before named slots) and excises the first match from its container, pruning a
named slot entry that becomes empty. -/

mutual
/-- Modelled from the spec (§4.3 `remove`): removal of the first match in
`findById` pre-order. -/
def specRemove (root : IRComponent) (targetId : String) : Bool × IRComponent :=
  match root with
  | .mk i t p ch sl =>
    match ch with
    | OptIRList.some cs =>
      match specRemoveList cs targetId with
      | (true, cs') => (true, .mk i t p (OptIRList.some cs') sl)
      | (false, _) =>
        match sl with
        | OptIRSlots.some ss =>
          let r := specRemoveSlots ss targetId
          (r.1, .mk i t p ch (OptIRSlots.some r.2))
        | OptIRSlots.none => (false, .mk i t p ch sl)
    | OptIRList.none =>
      match sl with
      | OptIRSlots.some ss =>
        let r := specRemoveSlots ss targetId
        (r.1, .mk i t p ch (OptIRSlots.some r.2))
      | OptIRSlots.none => (false, .mk i t p ch sl)

def specRemoveList (l : IRList) (targetId : String) : Bool × IRList :=
  match l with
  | .nil => (false, .nil)
  | .cons h t =>
    if h.id = targetId then (true, t)
    else
      match specRemove h targetId with
      | (true, h') => (true, .cons h' t)
      | (false, _) =>
        let r := specRemoveList t targetId
        (r.1, .cons h r.2)

def specRemoveSlots (s : IRSlots) (targetId : String) : Bool × IRSlots :=
  match s with
  | .nil => (false, .nil)
  | .cons n cs t =>
    match specRemoveList cs targetId with
    | (true, cs') =>
      if cs'.isNil then (true, t) else (true, .cons n cs' t)
    | (false, _) =>
      let r := specRemoveSlots t targetId
      (r.1, .cons n cs r.2)
end

/-! ## General lemmas -/

/-- View of an `IRList` as a standard list, for stating lemmas. -/
def IRList.toList : IRList → List IRComponent
  | .nil => []
  | .cons h t => h :: t.toList

theorem getAllComponentIds_mk (i t : String) (p : Option Props)
    (ch : OptIRList) (sl : OptIRSlots) :
    getAllComponentIds (IRComponent.mk i t p ch sl)
      = i :: subtreeIds (IRComponent.mk i t p ch sl) := by
  rw [getAllComponentIds.eq_def]
  rfl

theorem getAllComponentIds_eq (c : IRComponent) :
    getAllComponentIds c = c.id :: subtreeIds c := by
  cases c with
  | mk i t p ch sl =>
    rw [getAllComponentIds_mk]
    rfl

theorem mem_getAllComponentIds (c : IRComponent) (id : String) :
    id ∈ getAllComponentIds c ↔ id = c.id ∨ id ∈ subtreeIds c := by
  rw [getAllComponentIds_eq]; simp

theorem mem_allIdsList (l : IRList) (id : String) :
    id ∈ allIdsList l ↔ ∃ m ∈ l.toList, id ∈ getAllComponentIds m := by
  cases l with
  | nil => simp [allIdsList, IRList.toList]
  | cons h t =>
    simp [allIdsList, IRList.toList, mem_allIdsList t id]

theorem findIdxById_isSome (l : IRList) (id : String) :
    (l.findIdxById id).isSome = true ↔ ∃ m ∈ l.toList, m.id = id := by
  cases l with
  | nil => simp [IRList.findIdxById, IRList.toList]
  | cons h t =>
    by_cases hid : h.id = id
    · simp only [IRList.findIdxById, if_pos hid, IRList.toList]
      simp only [Option.isSome_some, true_iff]
      exact ⟨h, by simp, hid⟩
    · simp only [IRList.findIdxById, if_neg hid, IRList.toList]
      cases hidx : t.findIdxById id with
      | some j =>
        simp only [Option.map_some', Option.isSome_some, true_iff]
        have := (findIdxById_isSome t id).mp (by rw [hidx]; rfl)
        obtain ⟨m, hm, hmid⟩ := this
        exact ⟨m, by simp [hm], hmid⟩
      | none =>
        simp only [Option.map_none', Option.isSome_none]
        constructor
        · intro hfalse; cases hfalse
        · rintro ⟨m, hm, hmid⟩
          rcases List.mem_cons.mp hm with hm | hm
          · subst hm; exact absurd hmid hid
          · have : (t.findIdxById id).isSome = true :=
              (findIdxById_isSome t id).mpr ⟨m, hm, hmid⟩
            rw [hidx] at this; cases this

theorem mem_allIdsList_iff_parts (cs : IRList) (id : String) :
    id ∈ allIdsList cs ↔
      ((cs.findIdxById id).isSome = true ∨ ∃ m ∈ cs.toList, id ∈ subtreeIds m) := by
  rw [mem_allIdsList]
  constructor
  · rintro ⟨m, hm, hmem⟩
    rw [mem_getAllComponentIds] at hmem
    cases hmem with
    | inl h => exact Or.inl ((findIdxById_isSome cs id).mpr ⟨m, hm, h.symm⟩)
    | inr h => exact Or.inr ⟨m, hm, h⟩
  · rintro (h | ⟨m, hm, hmem⟩)
    · obtain ⟨m, hm, hmid⟩ := (findIdxById_isSome cs id).mp h
      exact ⟨m, hm, by rw [mem_getAllComponentIds]; exact Or.inl hmid.symm⟩
    · exact ⟨m, hm, by rw [mem_getAllComponentIds]; exact Or.inr hmem⟩

theorem count_erase_of_findIdx (l : IRList) (id : String) (j : Nat)
    (hj : l.findIdxById id = Option.some j) :
    (allIdsList (l.eraseIdx j)).count id < (allIdsList l).count id := by
  cases l with
  | nil => simp [IRList.findIdxById] at hj
  | cons h t =>
    by_cases hid : h.id = id
    · have hj0 : j = 0 := by
        simp [IRList.findIdxById, if_pos hid] at hj
        omega
      subst hj0
      simp only [IRList.eraseIdx, allIdsList, List.count_append]
      have h1 : 0 < (getAllComponentIds h).count id := by
        rw [getAllComponentIds_eq]
        simp [List.count_cons, hid]
      omega
    · simp only [IRList.findIdxById, if_neg hid] at hj
      cases hidx : t.findIdxById id with
      | none => rw [hidx] at hj; simp at hj
      | some j' =>
        rw [hidx] at hj
        simp at hj
        subst hj
        simp only [IRList.eraseIdx, allIdsList, List.count_append]
        have := count_erase_of_findIdx t id j' hidx
        omega

mutual
theorem removeComponent_found (c : IRComponent) (id : String) :
    (removeComponent c id).1 = true ↔ id ∈ subtreeIds c := by
  cases c with
  | mk i ty p ch sl =>
    cases ch with
    | some cs =>
      cases sl with
      | some ss =>
        simp only [removeComponent, subtreeIds, List.mem_append]
        rw [mem_allIdsList_iff_parts]
        cases hidx : cs.findIdxById id with
        | some j => simp [hidx]
        | none =>
          cases hrl : removeInList cs id with
          | mk ok cs' =>
            have hlist := removeInList_found cs id
            rw [hrl] at hlist
            have hslots := removeInSlots_found ss id
            cases ok with
            | true => simp [hidx, ← hlist]
            | false => simp [hidx, ← hlist, hslots]
      | none =>
        simp only [removeComponent, subtreeIds, List.append_nil]
        rw [mem_allIdsList_iff_parts]
        cases hidx : cs.findIdxById id with
        | some j => simp [hidx]
        | none =>
          cases hrl : removeInList cs id with
          | mk ok cs' =>
            have hlist := removeInList_found cs id
            rw [hrl] at hlist
            cases ok with
            | true => simp [hidx, ← hlist]
            | false => simp [hidx, ← hlist]
    | none =>
      cases sl with
      | some ss =>
        simp only [removeComponent, subtreeIds, List.nil_append]
        exact removeInSlots_found ss id
      | none =>
        simp [removeComponent, subtreeIds]

theorem removeInList_found (l : IRList) (id : String) :
    (removeInList l id).1 = true ↔ ∃ m ∈ l.toList, id ∈ subtreeIds m := by
  cases l with
  | nil => simp [removeInList, IRList.toList]
  | cons h t =>
    simp only [removeInList, IRList.toList]
    cases hh : removeComponent h id with
    | mk ok h' =>
      have hn := removeComponent_found h id
      rw [hh] at hn
      have ht := removeInList_found t id
      cases ok with
      | true =>
        simp only [eq_self_iff_true, true_iff] at hn
        simp only [true_iff]
        exact ⟨h, by simp, hn⟩
      | false =>
        simp only [Bool.false_eq_true, false_iff] at hn
        simp only []
        rw [ht]
        constructor
        · rintro ⟨m, hm, hmem⟩
          exact ⟨m, by simp [hm], hmem⟩
        · rintro ⟨m, hm, hmem⟩
          rcases List.mem_cons.mp hm with hm | hm
          · subst hm; exact absurd hmem hn
          · exact ⟨m, hm, hmem⟩

theorem removeInSlots_found (s : IRSlots) (id : String) :
    (removeInSlots s id).1 = true ↔ id ∈ allIdsSlots s := by
  cases s with
  | nil => simp [removeInSlots, allIdsSlots]
  | cons n cs t =>
    simp only [removeInSlots, allIdsSlots, List.mem_append]
    rw [mem_allIdsList_iff_parts]
    cases hidx : cs.findIdxById id with
    | some j =>
      simp only [hidx]
      split <;> simp [hidx]
    | none =>
      cases hrl : removeInList cs id with
      | mk ok cs' =>
        have hlist := removeInList_found cs id
        rw [hrl] at hlist
        have ht := removeInSlots_found t id
        cases ok with
        | true => simp [hidx, ← hlist]
        | false => simp [hidx, ← hlist, ht]
end

mutual
theorem remove_fail_eq (c : IRComponent) (id : String) :
    (removeComponent c id).1 = false → (removeComponent c id).2 = c := by
  cases c with
  | mk i t p ch sl =>
    cases ch with
    | some cs =>
      cases sl with
      | some ss =>
        simp only [removeComponent]
        cases hidx : cs.findIdxById id with
        | some j => simp
        | none =>
          cases hrl : removeInList cs id with
          | mk ok cs' =>
            cases ok with
            | true => simp
            | false =>
              have hcs := removeInList_fail_eq cs id
              rw [hrl] at hcs
              simp at hcs
              dsimp only
              intro hss
              rw [removeInSlots_fail_eq ss id hss]
      | none =>
        simp only [removeComponent]
        cases hidx : cs.findIdxById id with
        | some j => simp
        | none =>
          cases hrl : removeInList cs id with
          | mk ok cs' =>
            cases ok with
            | true => simp
            | false => simp
    | none =>
      cases sl with
      | some ss =>
        simp only [removeComponent]
        intro hss
        rw [removeInSlots_fail_eq ss id hss]
      | none => simp [removeComponent]

theorem removeInList_fail_eq (l : IRList) (id : String) :
    (removeInList l id).1 = false → (removeInList l id).2 = l := by
  cases l with
  | nil => simp [removeInList]
  | cons h t =>
    simp only [removeInList]
    cases hh : removeComponent h id with
    | mk ok h' =>
      cases ok with
      | true => simp
      | false =>
        dsimp only
        intro ht
        rw [removeInList_fail_eq t id ht]

theorem removeInSlots_fail_eq (s : IRSlots) (id : String) :
    (removeInSlots s id).1 = false → (removeInSlots s id).2 = s := by
  cases s with
  | nil => simp [removeInSlots]
  | cons n cs t =>
    simp only [removeInSlots]
    cases hidx : cs.findIdxById id with
    | some j => dsimp only; split <;> simp
    | none =>
      cases hrl : removeInList cs id with
      | mk ok cs' =>
        cases ok with
        | true => simp
        | false =>
          dsimp only
          intro ht
          rw [removeInSlots_fail_eq t id ht]
end

mutual
theorem removeComponent_count (c : IRComponent) (id : String) :
    (removeComponent c id).1 = true →
    (getAllComponentIds (removeComponent c id).2).count id
      < (getAllComponentIds c).count id := by
  cases c with
  | mk i ty p ch sl =>
    cases ch with
    | some cs =>
      cases sl with
      | some ss =>
        simp only [removeComponent]
        cases hidx : cs.findIdxById id with
        | some j =>
          intro _
          have := count_erase_of_findIdx cs id j hidx
          simp [getAllComponentIds, List.count_cons, List.count_append]
          omega
        | none =>
          cases hrl : removeInList cs id with
          | mk ok cs' =>
            cases ok with
            | true =>
              intro _
              have hc := removeInList_count cs id
              rw [hrl] at hc
              simp only [eq_self_iff_true, forall_true_left] at hc
              simp [getAllComponentIds, List.count_cons, List.count_append]
              omega
            | false =>
              dsimp only
              intro hss
              have hc := removeInSlots_count ss id hss
              simp [getAllComponentIds, List.count_cons, List.count_append]
              omega
      | none =>
        simp only [removeComponent]
        cases hidx : cs.findIdxById id with
        | some j =>
          intro _
          have := count_erase_of_findIdx cs id j hidx
          simp [getAllComponentIds, List.count_cons, List.count_append]
          omega
        | none =>
          cases hrl : removeInList cs id with
          | mk ok cs' =>
            cases ok with
            | true =>
              intro _
              have hc := removeInList_count cs id
              rw [hrl] at hc
              simp only [eq_self_iff_true, forall_true_left] at hc
              simp [getAllComponentIds, List.count_cons, List.count_append]
              omega
            | false => intro hfalse; cases hfalse
    | none =>
      cases sl with
      | some ss =>
        simp only [removeComponent]
        intro hss
        have hc := removeInSlots_count ss id hss
        simp [getAllComponentIds, List.count_cons, List.count_append]
        omega
      | none =>
        simp [removeComponent]

theorem removeInList_count (l : IRList) (id : String) :
    (removeInList l id).1 = true →
    (allIdsList (removeInList l id).2).count id < (allIdsList l).count id := by
  cases l with
  | nil => simp [removeInList]
  | cons h t =>
    simp only [removeInList]
    cases hh : removeComponent h id with
    | mk ok h' =>
      cases ok with
      | true =>
        intro _
        have hc := removeComponent_count h id
        rw [hh] at hc
        simp only [eq_self_iff_true, forall_true_left] at hc
        simp [allIdsList, List.count_append]
        omega
      | false =>
        dsimp only
        intro ht
        have hc := removeInList_count t id ht
        simp [allIdsList, List.count_append]
        omega

theorem removeInSlots_count (s : IRSlots) (id : String) :
    (removeInSlots s id).1 = true →
    (allIdsSlots (removeInSlots s id).2).count id < (allIdsSlots s).count id := by
  cases s with
  | nil => simp [removeInSlots]
  | cons n cs t =>
    simp only [removeInSlots]
    cases hidx : cs.findIdxById id with
    | some j =>
      have herase := count_erase_of_findIdx cs id j hidx
      simp only [hidx]
      split
      · intro _
        simp [allIdsSlots, List.count_append]
        exact List.count_pos_iff.mp (by omega)
      · intro _
        simp [allIdsSlots, List.count_append]
        omega
    | none =>
      cases hrl : removeInList cs id with
      | mk ok cs' =>
        cases ok with
        | true =>
          intro _
          have hc := removeInList_count cs id
          rw [hrl] at hc
          simp only [eq_self_iff_true, forall_true_left] at hc
          simp [allIdsSlots, List.count_append]
          omega
        | false =>
          dsimp only
          intro ht
          have hc := removeInSlots_count t id ht
          simp [allIdsSlots, List.count_append]
          omega
end

mutual
theorem findComponentById_isSome (c : IRComponent) (id : String) :
    (findComponentById c id).isSome = true ↔ id ∈ getAllComponentIds c := by
  cases c with
  | mk i ty p ch sl =>
    rw [mem_getAllComponentIds]
    cases ch with
    | some cs =>
      cases sl with
      | some ss =>
        simp only [findComponentById]
        by_cases hid : i = id
        · subst hid
          simp [IRComponent.id]
        · have hid' : ¬(id = (IRComponent.mk i ty p (OptIRList.some cs)
              (OptIRSlots.some ss)).id) := by
            simp only [IRComponent.id]
            exact fun h => hid h.symm
          simp only [if_neg hid]
          cases hf : findInList cs id with
          | some m =>
            have hmem : id ∈ allIdsList cs :=
              (mem_allIdsList cs id).mpr
                ((findInList_isSome cs id).mp (by rw [hf]; rfl))
            simp [hf, subtreeIds, hmem]
          | none =>
            have h1 := findInList_isSome cs id
            rw [hf] at h1
            simp only [Option.isSome_none, Bool.false_eq_true, false_iff] at h1
            have hmemcs : ¬ id ∈ allIdsList cs := fun hm =>
              h1 ((mem_allIdsList cs id).mp hm)
            have hs := findInSlots_isSome ss id
            simp [hf, subtreeIds, hid', hmemcs, hs]
      | none =>
        simp only [findComponentById]
        by_cases hid : i = id
        · subst hid
          simp [IRComponent.id]
        · have hid' : ¬(id = (IRComponent.mk i ty p (OptIRList.some cs)
              OptIRSlots.none).id) := by
            simp only [IRComponent.id]
            exact fun h => hid h.symm
          simp only [if_neg hid]
          cases hf : findInList cs id with
          | some m =>
            have hmem : id ∈ allIdsList cs :=
              (mem_allIdsList cs id).mpr
                ((findInList_isSome cs id).mp (by rw [hf]; rfl))
            simp [hf, subtreeIds, hmem]
          | none =>
            have h1 := findInList_isSome cs id
            rw [hf] at h1
            simp only [Option.isSome_none, Bool.false_eq_true, false_iff] at h1
            have hmemcs : ¬ id ∈ allIdsList cs := fun hm =>
              h1 ((mem_allIdsList cs id).mp hm)
            simp [hf, subtreeIds, hid', hmemcs]
    | none =>
      cases sl with
      | some ss =>
        simp only [findComponentById]
        by_cases hid : i = id
        · subst hid
          simp [IRComponent.id]
        · have hid' : ¬(id = (IRComponent.mk i ty p OptIRList.none
              (OptIRSlots.some ss)).id) := by
            simp only [IRComponent.id]
            exact fun h => hid h.symm
          have hs := findInSlots_isSome ss id
          simp [if_neg hid, subtreeIds, hid', hs]
      | none =>
        simp only [findComponentById]
        by_cases hid : i = id
        · subst hid
          simp [IRComponent.id]
        · have hid' : ¬(id = (IRComponent.mk i ty p OptIRList.none
              OptIRSlots.none).id) := by
            simp only [IRComponent.id]
            exact fun h => hid h.symm
          simp [if_neg hid, subtreeIds, hid']

theorem findInList_isSome (l : IRList) (id : String) :
    (findInList l id).isSome = true ↔ ∃ m ∈ l.toList, id ∈ getAllComponentIds m := by
  cases l with
  | nil => simp [findInList, IRList.toList]
  | cons h t =>
    simp only [findInList, IRList.toList]
    cases hh : findComponentById h id with
    | some m =>
      have hmem : id ∈ getAllComponentIds h :=
        (findComponentById_isSome h id).mp (by rw [hh]; rfl)
      simp only [hh]
      simp only [Option.isSome_some, true_iff]
      exact ⟨h, by simp, hmem⟩
    | none =>
      have hn := findComponentById_isSome h id
      rw [hh] at hn
      simp only [Option.isSome_none, Bool.false_eq_true, false_iff] at hn
      simp only [hh]
      rw [findInList_isSome t id]
      constructor
      · rintro ⟨m, hm, hmem⟩
        exact ⟨m, by simp [hm], hmem⟩
      · rintro ⟨m, hm, hmem⟩
        rcases List.mem_cons.mp hm with hm | hm
        · subst hm; exact absurd hmem hn
        · exact ⟨m, hm, hmem⟩

theorem findInSlots_isSome (s : IRSlots) (id : String) :
    (findInSlots s id).isSome = true ↔ id ∈ allIdsSlots s := by
  cases s with
  | nil => simp [findInSlots, allIdsSlots]
  | cons n cs t =>
    simp only [findInSlots, allIdsSlots, List.mem_append]
    cases hf : findInList cs id with
    | some m =>
      have hmem : id ∈ allIdsList cs :=
        (mem_allIdsList cs id).mpr
          ((findInList_isSome cs id).mp (by rw [hf]; rfl))
      simp [hf, hmem]
    | none =>
      have h1 := findInList_isSome cs id
      rw [hf] at h1
      simp only [Option.isSome_none, Bool.false_eq_true, false_iff] at h1
      have hmemcs : ¬ id ∈ allIdsList cs := fun hm =>
        h1 ((mem_allIdsList cs id).mp hm)
      have hs := findInSlots_isSome t id
      simp [hf, hmemcs, hs]
end

theorem IRComponent.eta (c : IRComponent) :
    c = IRComponent.mk c.id c.type c.props c.children c.slots := by
  cases c with
  | mk i t p ch sl => rfl

theorem findComponentById_self (x : IRComponent) (id : String) (h : x.id = id) :
    findComponentById x id = Option.some x := by
  cases x with
  | mk i ty p ch sl =>
    simp only [IRComponent.id] at h
    cases ch <;> cases sl <;> simp [findComponentById, h]

/-- The fields of the node produced by a field-preserving rewriting function. -/
theorem update_shape (f : IRComponent → IRComponent)
    (Hid : ∀ x, (f x).id = x.id) (Hty : ∀ x, (f x).type = x.type)
    (Hch : ∀ x, (f x).children = x.children) (Hsl : ∀ x, (f x).slots = x.slots)
    (x : IRComponent) :
    f x = IRComponent.mk x.id x.type (f x).props x.children x.slots := by
  rw [← Hid x, ← Hty x, ← Hch x, ← Hsl x]
  exact IRComponent.eta (f x)

mutual
theorem updateFirstById_found_iff (c : IRComponent) (id : String)
    (f : IRComponent → IRComponent) :
    (updateFirstById c id f).1 = true ↔ id ∈ getAllComponentIds c := by
  cases c with
  | mk i ty p ch sl =>
    rw [mem_getAllComponentIds]
    cases ch with
    | some cs =>
      cases sl with
      | some ss =>
        simp only [updateFirstById]
        by_cases hid : i = id
        · subst hid
          simp [IRComponent.id]
        · have hid' : ¬(id = (IRComponent.mk i ty p (OptIRList.some cs)
              (OptIRSlots.some ss)).id) := by
            simp only [IRComponent.id]
            exact fun h => hid h.symm
          simp only [if_neg hid]
          cases hu : updateInList cs id f with
          | mk ok cs' =>
            have hl := updateInList_found_iff cs id f
            rw [hu] at hl
            cases ok with
            | true =>
              have : id ∈ allIdsList cs :=
                (mem_allIdsList cs id).mpr (hl.mp rfl)
              simp [subtreeIds, this]
            | false =>
              have hnc : ¬ (∃ m ∈ cs.toList, id ∈ getAllComponentIds m) := by
                intro hex
                have := hl.mpr hex
                cases this
              have hmemcs : ¬ id ∈ allIdsList cs := fun hm =>
                hnc ((mem_allIdsList cs id).mp hm)
              have hs := updateInSlots_found_iff ss id f
              simp [subtreeIds, hid', hmemcs, hs]
      | none =>
        simp only [updateFirstById]
        by_cases hid : i = id
        · subst hid
          simp [IRComponent.id]
        · have hid' : ¬(id = (IRComponent.mk i ty p (OptIRList.some cs)
              OptIRSlots.none).id) := by
            simp only [IRComponent.id]
            exact fun h => hid h.symm
          simp only [if_neg hid]
          cases hu : updateInList cs id f with
          | mk ok cs' =>
            have hl := updateInList_found_iff cs id f
            rw [hu] at hl
            cases ok with
            | true =>
              have : id ∈ allIdsList cs :=
                (mem_allIdsList cs id).mpr (hl.mp rfl)
              simp [subtreeIds, this]
            | false =>
              have hnc : ¬ (∃ m ∈ cs.toList, id ∈ getAllComponentIds m) := by
                intro hex
                have := hl.mpr hex
                cases this
              have hmemcs : ¬ id ∈ allIdsList cs := fun hm =>
                hnc ((mem_allIdsList cs id).mp hm)
              simp [subtreeIds, hid', hmemcs]
    | none =>
      cases sl with
      | some ss =>
        simp only [updateFirstById]
        by_cases hid : i = id
        · subst hid
          simp [IRComponent.id]
        · have hid' : ¬(id = (IRComponent.mk i ty p OptIRList.none
              (OptIRSlots.some ss)).id) := by
            simp only [IRComponent.id]
            exact fun h => hid h.symm
          have hs := updateInSlots_found_iff ss id f
          simp [if_neg hid, subtreeIds, hid', hs]
      | none =>
        simp only [updateFirstById]
        by_cases hid : i = id
        · subst hid
          simp [IRComponent.id]
        · have hid' : ¬(id = (IRComponent.mk i ty p OptIRList.none
              OptIRSlots.none).id) := by
            simp only [IRComponent.id]
            exact fun h => hid h.symm
          simp [if_neg hid, subtreeIds, hid']

theorem updateInList_found_iff (l : IRList) (id : String)
    (f : IRComponent → IRComponent) :
    (updateInList l id f).1 = true ↔ ∃ m ∈ l.toList, id ∈ getAllComponentIds m := by
  cases l with
  | nil => simp [updateInList, IRList.toList]
  | cons h t =>
    simp only [updateInList, IRList.toList]
    cases hh : updateFirstById h id f with
    | mk ok h' =>
      have hn := updateFirstById_found_iff h id f
      rw [hh] at hn
      cases ok with
      | true =>
        simp only [eq_self_iff_true, true_iff] at hn
        simp only [true_iff]
        exact ⟨h, by simp, hn⟩
      | false =>
        simp only [Bool.false_eq_true, false_iff] at hn
        have ht := updateInList_found_iff t id f
        simp only []
        rw [ht]
        constructor
        · rintro ⟨m, hm, hmem⟩
          exact ⟨m, by simp [hm], hmem⟩
        · rintro ⟨m, hm, hmem⟩
          rcases List.mem_cons.mp hm with hm | hm
          · subst hm; exact absurd hmem hn
          · exact ⟨m, hm, hmem⟩

theorem updateInSlots_found_iff (s : IRSlots) (id : String)
    (f : IRComponent → IRComponent) :
    (updateInSlots s id f).1 = true ↔ id ∈ allIdsSlots s := by
  cases s with
  | nil => simp [updateInSlots, allIdsSlots]
  | cons n cs t =>
    simp only [updateInSlots, allIdsSlots, List.mem_append]
    cases hu : updateInList cs id f with
    | mk ok cs' =>
      have hl := updateInList_found_iff cs id f
      rw [hu] at hl
      cases ok with
      | true =>
        have : id ∈ allIdsList cs :=
          (mem_allIdsList cs id).mpr (hl.mp rfl)
        simp [this]
      | false =>
        have hnc : ¬ (∃ m ∈ cs.toList, id ∈ getAllComponentIds m) := by
          intro hex
          have := hl.mpr hex
          cases this
        have hmemcs : ¬ id ∈ allIdsList cs := fun hm =>
          hnc ((mem_allIdsList cs id).mp hm)
        have ht := updateInSlots_found_iff t id f
        simp [hmemcs, ht]
end

mutual
theorem updateFirstById_fail_eq (c : IRComponent) (id : String)
    (f : IRComponent → IRComponent) :
    (updateFirstById c id f).1 = false → (updateFirstById c id f).2 = c := by
  cases c with
  | mk i ty p ch sl =>
    cases ch with
    | some cs =>
      cases sl with
      | some ss =>
        simp only [updateFirstById]
        by_cases hid : i = id
        · simp [hid]
        · simp only [if_neg hid]
          cases hu : updateInList cs id f with
          | mk ok cs' =>
            cases ok with
            | true => simp
            | false =>
              have hcs := updateInList_fail_eq' cs id f
              rw [hu] at hcs
              simp at hcs
              dsimp only
              intro hss
              rw [updateInSlots_fail_eq' ss id f hss]
      | none =>
        simp only [updateFirstById]
        by_cases hid : i = id
        · simp [hid]
        · simp only [if_neg hid]
          cases hu : updateInList cs id f with
          | mk ok cs' =>
            cases ok with
            | true => simp
            | false => simp
    | none =>
      cases sl with
      | some ss =>
        simp only [updateFirstById]
        by_cases hid : i = id
        · simp [hid]
        · simp only [if_neg hid]
          intro hss
          rw [updateInSlots_fail_eq' ss id f hss]
      | none =>
        simp only [updateFirstById]
        by_cases hid : i = id
        · simp [hid]
        · simp [if_neg hid]

theorem updateInList_fail_eq' (l : IRList) (id : String)
    (f : IRComponent → IRComponent) :
    (updateInList l id f).1 = false → (updateInList l id f).2 = l := by
  cases l with
  | nil => simp [updateInList]
  | cons h t =>
    simp only [updateInList]
    cases hh : updateFirstById h id f with
    | mk ok h' =>
      cases ok with
      | true => simp
      | false =>
        dsimp only
        intro ht
        rw [updateInList_fail_eq' t id f ht]

theorem updateInSlots_fail_eq' (s : IRSlots) (id : String)
    (f : IRComponent → IRComponent) :
    (updateInSlots s id f).1 = false → (updateInSlots s id f).2 = s := by
  cases s with
  | nil => simp [updateInSlots]
  | cons n cs t =>
    simp only [updateInSlots]
    cases hu : updateInList cs id f with
    | mk ok cs' =>
      cases ok with
      | true => simp
      | false =>
        dsimp only
        intro ht
        rw [updateInSlots_fail_eq' t id f ht]
end

theorem updateFirstById_notFound (c : IRComponent) (id : String)
    (f : IRComponent → IRComponent)
    (h : findComponentById c id = Option.none) :
    updateFirstById c id f = (false, c) := by
  have hmem : ¬ id ∈ getAllComponentIds c := by
    intro hm
    have := (findComponentById_isSome c id).mpr hm
    rw [h] at this
    cases this
  have h1 : (updateFirstById c id f).1 = false := by
    cases hb : (updateFirstById c id f).1
    · rfl
    · exact absurd ((updateFirstById_found_iff c id f).mp hb) hmem
  have h2 := updateFirstById_fail_eq c id f h1
  cases hu : updateFirstById c id f with
  | mk ok c' =>
    rw [hu] at h1 h2
    simp only [] at h1 h2
    rw [h1, h2]

theorem updateInList_notFound (l : IRList) (id : String)
    (f : IRComponent → IRComponent)
    (h : findInList l id = Option.none) :
    updateInList l id f = (false, l) := by
  have hmem : ¬ ∃ m ∈ l.toList, id ∈ getAllComponentIds m := by
    intro hm
    have := (findInList_isSome l id).mpr hm
    rw [h] at this
    cases this
  have h1 : (updateInList l id f).1 = false := by
    cases hb : (updateInList l id f).1
    · rfl
    · exact absurd ((updateInList_found_iff l id f).mp hb) hmem
  have h2 := updateInList_fail_eq' l id f h1
  cases hu : updateInList l id f with
  | mk ok l' =>
    rw [hu] at h1 h2
    simp only [] at h1 h2
    rw [h1, h2]

mutual
theorem updateFirstById_found (c : IRComponent) (id : String)
    (f : IRComponent → IRComponent) (m : IRComponent)
    (Hid : ∀ x, (f x).id = x.id)
    (hfind : findComponentById c id = Option.some m) :
    findComponentById (updateFirstById c id f).2 id = Option.some (f m) := by
  cases c with
  | mk i ty p ch sl =>
    by_cases hid : i = id
    · have hself := findComponentById_self (IRComponent.mk i ty p ch sl) id
        (by simp [IRComponent.id, hid])
      rw [hself] at hfind
      have hroot : m = IRComponent.mk i ty p ch sl := (Option.some.inj hfind).symm
      subst hroot
      have hu : updateFirstById (IRComponent.mk i ty p ch sl) id f
          = (true, f (IRComponent.mk i ty p ch sl)) := by
        cases ch <;> cases sl <;> simp [updateFirstById, hid]
      rw [hu]
      exact findComponentById_self _ id (by rw [Hid]; simp [IRComponent.id, hid])
    · cases ch with
      | some cs =>
        cases sl with
        | some ss =>
          simp only [findComponentById, if_neg hid] at hfind
          cases hf : findInList cs id with
          | some m0 =>
            simp only [hf] at hfind
            obtain rfl : m0 = m := Option.some.inj hfind
            have hIn := updateInList_found cs id f m0 Hid hf
            have hok : (updateInList cs id f).1 = true :=
              (updateInList_found_iff cs id f).mpr
                ((findInList_isSome cs id).mp (by rw [hf]; rfl))
            cases hu : updateInList cs id f with
            | mk ok cs' =>
              rw [hu] at hIn hok
              simp only [] at hIn hok
              subst hok
              simp only [updateFirstById, if_neg hid, hu]
              simp [findComponentById, if_neg hid, hIn]
          | none =>
            simp only [hf] at hfind
            cases hs : findInSlots ss id with
            | some m1 =>
              simp only [hs] at hfind
              obtain rfl : m1 = m := Option.some.inj hfind
              have hnl := updateInList_notFound cs id f hf
              have hSl := updateInSlots_found ss id f m1 Hid hs
              simp only [updateFirstById, if_neg hid, hnl]
              simp [findComponentById, if_neg hid, hf, hSl]
            | none =>
              simp only [hs] at hfind
              cases hfind
        | none =>
          simp only [findComponentById, if_neg hid] at hfind
          cases hf : findInList cs id with
          | some m0 =>
            simp only [hf] at hfind
            obtain rfl : m0 = m := Option.some.inj hfind
            have hIn := updateInList_found cs id f m0 Hid hf
            have hok : (updateInList cs id f).1 = true :=
              (updateInList_found_iff cs id f).mpr
                ((findInList_isSome cs id).mp (by rw [hf]; rfl))
            cases hu : updateInList cs id f with
            | mk ok cs' =>
              rw [hu] at hIn hok
              simp only [] at hIn hok
              subst hok
              simp only [updateFirstById, if_neg hid, hu]
              simp [findComponentById, if_neg hid, hIn]
          | none =>
            simp only [hf] at hfind
            cases hfind
      | none =>
        cases sl with
        | some ss =>
          simp only [findComponentById, if_neg hid] at hfind
          cases hs : findInSlots ss id with
          | some m1 =>
            simp only [hs] at hfind
            obtain rfl : m1 = m := Option.some.inj hfind
            have hSl := updateInSlots_found ss id f m1 Hid hs
            simp only [updateFirstById, if_neg hid]
            simp [findComponentById, if_neg hid, hSl]
          | none =>
            simp only [hs] at hfind
            cases hfind
        | none =>
          simp only [findComponentById, if_neg hid] at hfind
          cases hfind

theorem updateInList_found (l : IRList) (id : String)
    (f : IRComponent → IRComponent) (m : IRComponent)
    (Hid : ∀ x, (f x).id = x.id)
    (hfind : findInList l id = Option.some m) :
    findInList (updateInList l id f).2 id = Option.some (f m) := by
  cases l with
  | nil => simp [findInList] at hfind
  | cons h t =>
    simp only [findInList] at hfind
    cases hh : findComponentById h id with
    | some m0 =>
      simp only [hh] at hfind
      obtain rfl : m0 = m := Option.some.inj hfind
      have hres := updateFirstById_found h id f m0 Hid hh
      have hok : (updateFirstById h id f).1 = true :=
        (updateFirstById_found_iff h id f).mpr
          ((findComponentById_isSome h id).mp (by rw [hh]; rfl))
      cases hu : updateFirstById h id f with
      | mk ok h' =>
        rw [hu] at hres hok
        simp only [] at hres hok
        subst hok
        simp only [updateInList, hu]
        simp [findInList, hres]
    | none =>
      simp only [hh] at hfind
      have hnf := updateFirstById_notFound h id f hh
      have hrec := updateInList_found t id f m Hid hfind
      simp only [updateInList, hnf]
      simp [findInList, hh, hrec]

theorem updateInSlots_found (s : IRSlots) (id : String)
    (f : IRComponent → IRComponent) (m : IRComponent)
    (Hid : ∀ x, (f x).id = x.id)
    (hfind : findInSlots s id = Option.some m) :
    findInSlots (updateInSlots s id f).2 id = Option.some (f m) := by
  cases s with
  | nil => simp [findInSlots] at hfind
  | cons n cs t =>
    simp only [findInSlots] at hfind
    cases hf : findInList cs id with
    | some m0 =>
      simp only [hf] at hfind
      obtain rfl : m0 = m := Option.some.inj hfind
      have hIn := updateInList_found cs id f m0 Hid hf
      have hok : (updateInList cs id f).1 = true :=
        (updateInList_found_iff cs id f).mpr
          ((findInList_isSome cs id).mp (by rw [hf]; rfl))
      cases hu : updateInList cs id f with
      | mk ok cs' =>
        rw [hu] at hIn hok
        simp only [] at hIn hok
        subst hok
        simp only [updateInSlots, hu]
        simp [findInSlots, hIn]
    | none =>
      simp only [hf] at hfind
      have hnl := updateInList_notFound cs id f hf
      have hrec := updateInSlots_found t id f m Hid hfind
      simp only [updateInSlots, hnl]
      simp [findInSlots, hf, hrec]
end

mutual
theorem updateFirstById_allIds (c : IRComponent) (id : String)
    (f : IRComponent → IRComponent)
    (Hids : ∀ x, getAllComponentIds (f x) = getAllComponentIds x) :
    getAllComponentIds (updateFirstById c id f).2 = getAllComponentIds c := by
  cases c with
  | mk i ty p ch sl =>
    by_cases hid : i = id
    · have hu : updateFirstById (IRComponent.mk i ty p ch sl) id f
          = (true, f (IRComponent.mk i ty p ch sl)) := by
        cases ch <;> cases sl <;> simp [updateFirstById, hid]
      rw [hu]
      exact Hids _
    · cases ch with
      | some cs =>
        cases sl with
        | some ss =>
          simp only [updateFirstById, if_neg hid]
          cases hu : updateInList cs id f with
          | mk ok cs' =>
            have hl := updateInList_allIds cs id f Hids
            rw [hu] at hl
            cases ok with
            | true => simp [getAllComponentIds, hl]
            | false =>
              have hs := updateInSlots_allIds ss id f Hids
              simp [getAllComponentIds, hs]
        | none =>
          simp only [updateFirstById, if_neg hid]
          cases hu : updateInList cs id f with
          | mk ok cs' =>
            have hl := updateInList_allIds cs id f Hids
            rw [hu] at hl
            cases ok with
            | true => simp [getAllComponentIds, hl]
            | false => simp [getAllComponentIds]
      | none =>
        cases sl with
        | some ss =>
          simp only [updateFirstById, if_neg hid]
          have hs := updateInSlots_allIds ss id f Hids
          simp [getAllComponentIds, hs]
        | none =>
          simp [updateFirstById, if_neg hid]

theorem updateInList_allIds (l : IRList) (id : String)
    (f : IRComponent → IRComponent)
    (Hids : ∀ x, getAllComponentIds (f x) = getAllComponentIds x) :
    allIdsList (updateInList l id f).2 = allIdsList l := by
  cases l with
  | nil => simp [updateInList]
  | cons h t =>
    simp only [updateInList]
    cases hu : updateFirstById h id f with
    | mk ok h' =>
      have hn := updateFirstById_allIds h id f Hids
      rw [hu] at hn
      cases ok with
      | true => simp [allIdsList, hn]
      | false =>
        have ht := updateInList_allIds t id f Hids
        simp [allIdsList, ht]

theorem updateInSlots_allIds (s : IRSlots) (id : String)
    (f : IRComponent → IRComponent)
    (Hids : ∀ x, getAllComponentIds (f x) = getAllComponentIds x) :
    allIdsSlots (updateInSlots s id f).2 = allIdsSlots s := by
  cases s with
  | nil => simp [updateInSlots]
  | cons n cs t =>
    simp only [updateInSlots]
    cases hu : updateInList cs id f with
    | mk ok cs' =>
      have hl := updateInList_allIds cs id f Hids
      rw [hu] at hl
      cases ok with
      | true => simp [allIdsSlots, hl]
      | false =>
        have ht := updateInSlots_allIds t id f Hids
        simp [allIdsSlots, ht]
end

mutual
theorem updateFirstById_find_other (c : IRComponent) (id id' : String)
    (f : IRComponent → IRComponent)
    (Hid : ∀ x, (f x).id = x.id) (Hty : ∀ x, (f x).type = x.type)
    (Hch : ∀ x, (f x).children = x.children) (Hsl : ∀ x, (f x).slots = x.slots)
    (hne : id' ≠ id) :
    (findComponentById (updateFirstById c id f).2 id').map IRComponent.props
      = (findComponentById c id').map IRComponent.props := by
  cases c with
  | mk i ty p ch sl =>
    by_cases hid : i = id
    · have hu : updateFirstById (IRComponent.mk i ty p ch sl) id f
          = (true, f (IRComponent.mk i ty p ch sl)) := by
        cases ch <;> cases sl <;> simp [updateFirstById, hid]
      rw [hu]
      rw [update_shape f Hid Hty Hch Hsl]
      have hne' : ¬ i = id' := fun h => hne (by rw [← h, hid])
      cases ch <;> cases sl <;>
        simp [findComponentById, IRComponent.id, IRComponent.type,
          IRComponent.props, IRComponent.children, IRComponent.slots,
          if_neg hne']
    · by_cases hid2 : i = id'
      · subst hid2
        have h1 := findComponentById_self (IRComponent.mk i ty p ch sl) i
          (by simp [IRComponent.id])
        rw [h1]
        cases hu : updateFirstById (IRComponent.mk i ty p ch sl) id f with
        | mk ok c' =>
          cases ok with
          | false =>
            have hc' : c' = IRComponent.mk i ty p ch sl := by
              have h2 := updateFirstById_fail_eq (IRComponent.mk i ty p ch sl)
                id f (by rw [hu])
              rw [hu] at h2
              exact h2
            rw [hc', h1]
          | true =>
            have hstruct : ∃ cs' ss',
                (c' = IRComponent.mk i ty p cs' ss') := by
              cases ch with
              | some cs =>
                cases sl with
                | some ss =>
                  simp only [updateFirstById, if_neg hid] at hu
                  cases hul : updateInList cs id f with
                  | mk ok2 cs2 =>
                    rw [hul] at hu
                    cases ok2 with
                    | true =>
                      simp only [] at hu
                      exact ⟨OptIRList.some cs2, OptIRSlots.some ss,
                        (Prod.mk.injEq _ _ _ _).mp hu |>.2.symm⟩
                    | false =>
                      simp only [] at hu
                      exact ⟨OptIRList.some cs,
                        OptIRSlots.some (updateInSlots ss id f).2,
                        (Prod.mk.injEq _ _ _ _).mp hu |>.2.symm⟩
                | none =>
                  simp only [updateFirstById, if_neg hid] at hu
                  cases hul : updateInList cs id f with
                  | mk ok2 cs2 =>
                    rw [hul] at hu
                    cases ok2 with
                    | true =>
                      simp only [] at hu
                      exact ⟨OptIRList.some cs2, OptIRSlots.none,
                        (Prod.mk.injEq _ _ _ _).mp hu |>.2.symm⟩
                    | false => simp at hu
              | none =>
                cases sl with
                | some ss =>
                  simp only [updateFirstById, if_neg hid] at hu
                  exact ⟨OptIRList.none,
                    OptIRSlots.some (updateInSlots ss id f).2,
                    (Prod.mk.injEq _ _ _ _).mp hu |>.2.symm⟩
                | none =>
                  simp [updateFirstById, if_neg hid] at hu
            obtain ⟨cs', ss', rfl⟩ := hstruct
            rw [findComponentById_self (IRComponent.mk i ty p cs' ss') i
              (by simp [IRComponent.id])]
            simp [IRComponent.props]
      · cases ch with
        | some cs =>
          cases sl with
          | some ss =>
            simp only [updateFirstById, if_neg hid]
            cases hu : updateInList cs id f with
            | mk ok cs' =>
              have hl := updateInList_find_other cs id id' f Hid Hty Hch Hsl hne
              rw [hu] at hl
              cases ok with
              | true =>
                simp only []
                rw [findComponentById.eq_4, findComponentById.eq_4]
                simp only [if_neg hid2]
                cases hr : findInList cs id' with
                | some y =>
                  rw [hr] at hl
                  cases hl2 : findInList cs' id' with
                  | none => rw [hl2] at hl; simp at hl
                  | some y' =>
                    rw [hl2] at hl
                    simp only [Option.map_some'] at hl
                    simp [hl]
                | none =>
                  rw [hr] at hl
                  simp only [Option.map_none'] at hl
                  have hl2 : findInList cs' id' = Option.none :=
                    Option.map_eq_none'.mp hl
                  simp [hl2]
              | false =>
                simp only []
                have hs := updateInSlots_find_other ss id id' f Hid Hty Hch Hsl hne
                rw [findComponentById.eq_4, findComponentById.eq_4]
                simp only [if_neg hid2]
                cases hr : findInList cs id' with
                | some y => simp [hr]
                | none =>
                  simp only [hr]
                  cases hs2 : findInSlots ss id' with
                  | some z =>
                    rw [hs2] at hs
                    cases hs3 : findInSlots (updateInSlots ss id f).2 id' with
                    | none => rw [hs3] at hs; simp at hs
                    | some z' =>
                      rw [hs3] at hs
                      simp only [Option.map_some'] at hs
                      simp [hs]
                  | none =>
                    rw [hs2] at hs
                    simp only [Option.map_none'] at hs
                    have hs3 : findInSlots (updateInSlots ss id f).2 id'
                        = Option.none := Option.map_eq_none'.mp hs
                    simp [hs3]
          | none =>
            simp only [updateFirstById, if_neg hid]
            cases hu : updateInList cs id f with
            | mk ok cs' =>
              have hl := updateInList_find_other cs id id' f Hid Hty Hch Hsl hne
              rw [hu] at hl
              cases ok with
              | true =>
                simp only []
                rw [findComponentById.eq_3, findComponentById.eq_3]
                simp only [if_neg hid2]
                cases hr : findInList cs id' with
                | some y =>
                  rw [hr] at hl
                  cases hl2 : findInList cs' id' with
                  | none => rw [hl2] at hl; simp at hl
                  | some y' =>
                    rw [hl2] at hl
                    simp only [Option.map_some'] at hl
                    simp [hl]
                | none =>
                  rw [hr] at hl
                  simp only [Option.map_none'] at hl
                  have hl2 : findInList cs' id' = Option.none :=
                    Option.map_eq_none'.mp hl
                  simp [hl2]
              | false => simp
        | none =>
          cases sl with
          | some ss =>
            simp only [updateFirstById, if_neg hid]
            have hs := updateInSlots_find_other ss id id' f Hid Hty Hch Hsl hne
            rw [findComponentById.eq_2, findComponentById.eq_2]
            simp only [if_neg hid2]
            cases hs2 : findInSlots ss id' with
            | some z =>
              rw [hs2] at hs
              cases hs3 : findInSlots (updateInSlots ss id f).2 id' with
              | none => rw [hs3] at hs; simp at hs
              | some z' =>
                rw [hs3] at hs
                simp only [Option.map_some'] at hs
                simp [hs]
            | none =>
              rw [hs2] at hs
              simp only [Option.map_none'] at hs
              have hs3 : findInSlots (updateInSlots ss id f).2 id'
                  = Option.none := Option.map_eq_none'.mp hs
              simp [hs3]
          | none =>
            simp [updateFirstById, if_neg hid]

theorem updateInList_find_other (l : IRList) (id id' : String)
    (f : IRComponent → IRComponent)
    (Hid : ∀ x, (f x).id = x.id) (Hty : ∀ x, (f x).type = x.type)
    (Hch : ∀ x, (f x).children = x.children) (Hsl : ∀ x, (f x).slots = x.slots)
    (hne : id' ≠ id) :
    (findInList (updateInList l id f).2 id').map IRComponent.props
      = (findInList l id').map IRComponent.props := by
  cases l with
  | nil => simp [updateInList]
  | cons h t =>
    simp only [updateInList]
    cases hu : updateFirstById h id f with
    | mk ok h' =>
      have hn := updateFirstById_find_other h id id' f Hid Hty Hch Hsl hne
      rw [hu] at hn
      cases ok with
      | true =>
        simp only []
        rw [findInList.eq_2, findInList.eq_2]
        cases hr : findComponentById h id' with
        | some y =>
          rw [hr] at hn
          cases hl2 : findComponentById h' id' with
          | none => rw [hl2] at hn; simp at hn
          | some y' =>
            rw [hl2] at hn
            simp only [Option.map_some'] at hn
            simp [hn]
        | none =>
          rw [hr] at hn
          simp only [Option.map_none'] at hn
          have hl2 : findComponentById h' id' = Option.none :=
            Option.map_eq_none'.mp hn
          simp [hl2]
      | false =>
        simp only []
        have ht := updateInList_find_other t id id' f Hid Hty Hch Hsl hne
        rw [findInList.eq_2, findInList.eq_2]
        cases hr : findComponentById h id' with
        | some y => simp [hr]
        | none => simp [hr, ht]

theorem updateInSlots_find_other (s : IRSlots) (id id' : String)
    (f : IRComponent → IRComponent)
    (Hid : ∀ x, (f x).id = x.id) (Hty : ∀ x, (f x).type = x.type)
    (Hch : ∀ x, (f x).children = x.children) (Hsl : ∀ x, (f x).slots = x.slots)
    (hne : id' ≠ id) :
    (findInSlots (updateInSlots s id f).2 id').map IRComponent.props
      = (findInSlots s id').map IRComponent.props := by
  cases s with
  | nil => simp [updateInSlots]
  | cons n cs t =>
    simp only [updateInSlots]
    cases hu : updateInList cs id f with
    | mk ok cs' =>
      have hl := updateInList_find_other cs id id' f Hid Hty Hch Hsl hne
      rw [hu] at hl
      cases ok with
      | true =>
        simp only []
        rw [findInSlots.eq_2, findInSlots.eq_2]
        cases hr : findInList cs id' with
        | some y =>
          rw [hr] at hl
          cases hl2 : findInList cs' id' with
          | none => rw [hl2] at hl; simp at hl
          | some y' =>
            rw [hl2] at hl
            simp only [Option.map_some'] at hl
            simp [hl]
        | none =>
          rw [hr] at hl
          simp only [Option.map_none'] at hl
          have hl2 : findInList cs' id' = Option.none :=
            Option.map_eq_none'.mp hl
          simp [hl2]
      | false =>
        simp only []
        have ht := updateInSlots_find_other t id id' f Hid Hty Hch Hsl hne
        rw [findInSlots.eq_2, findInSlots.eq_2]
        cases hr : findInList cs id' with
        | some y => simp [hr]
        | none => simp [hr, ht]
end

mutual
theorem searchDepth_absent (c : IRComponent) (id : String) (d : Int)
    (h : ¬ id ∈ getAllComponentIds c) :
    searchDepth c id d = -1 := by
  cases c with
  | mk i ty p ch sl =>
    rw [mem_getAllComponentIds] at h
    push_neg at h
    obtain ⟨hid, hsub⟩ := h
    have hid' : ¬ i = id := fun he => hid (by simp [IRComponent.id, he])
    cases ch with
    | some cs =>
      cases sl with
      | some ss =>
        have hmem := hsub
        simp only [subtreeIds, List.mem_append] at hmem
        push_neg at hmem
        obtain ⟨hcs, hss⟩ := hmem
        have hl := searchDepthList_absent cs id (d + 1) (fun hex =>
          hcs ((mem_allIdsList cs id).mpr hex))
        have hs := searchDepthSlots_absent ss id (d + 1) hss
        simp [searchDepth, if_neg hid', hl, hs]
      | none =>
        have hmem := hsub
        simp only [subtreeIds, List.append_nil] at hmem
        have hl := searchDepthList_absent cs id (d + 1) (fun hex =>
          hmem ((mem_allIdsList cs id).mpr hex))
        simp [searchDepth, if_neg hid', hl]
    | none =>
      cases sl with
      | some ss =>
        have hmem := hsub
        simp only [subtreeIds, List.nil_append] at hmem
        have hs := searchDepthSlots_absent ss id (d + 1) hmem
        simp [searchDepth, if_neg hid', hs]
      | none =>
        simp [searchDepth, if_neg hid']

theorem searchDepthList_absent (l : IRList) (id : String) (d : Int)
    (h : ¬ ∃ m ∈ l.toList, id ∈ getAllComponentIds m) :
    searchDepthList l id d = -1 := by
  cases l with
  | nil => simp [searchDepthList]
  | cons hd tl =>
    push_neg at h
    have hh : ¬ id ∈ getAllComponentIds hd := h hd (by simp [IRList.toList])
    have ht : ¬ ∃ m ∈ tl.toList, id ∈ getAllComponentIds m := by
      push_neg
      intro m hm
      exact h m (by simp [IRList.toList, hm])
    have h1 := searchDepth_absent hd id d hh
    have h2 := searchDepthList_absent tl id d ht
    simp [searchDepthList, h1, h2]

theorem searchDepthSlots_absent (s : IRSlots) (id : String) (d : Int)
    (h : ¬ id ∈ allIdsSlots s) :
    searchDepthSlots s id d = -1 := by
  cases s with
  | nil => simp [searchDepthSlots]
  | cons n cs t =>
    simp only [allIdsSlots, List.mem_append] at h
    push_neg at h
    obtain ⟨hcs, ht⟩ := h
    have h1 := searchDepthList_absent cs id d (fun hex =>
      hcs ((mem_allIdsList cs id).mpr hex))
    have h2 := searchDepthSlots_absent t id d ht
    simp [searchDepthSlots, h1, h2]
end

mutual
theorem searchDepth_present (c : IRComponent) (id : String) (d : Int)
    (hd : 0 ≤ d) (h : id ∈ getAllComponentIds c) :
    d ≤ searchDepth c id d := by
  cases c with
  | mk i ty p ch sl =>
    by_cases hid : i = id
    · cases ch <;> cases sl <;> simp [searchDepth, hid]
    · rw [mem_getAllComponentIds] at h
      rcases h with h | h
      · exact absurd h.symm hid
      · cases ch with
        | some cs =>
          cases sl with
          | some ss =>
            simp only [subtreeIds, List.mem_append] at h
            by_cases hcs : id ∈ allIdsList cs
            · have hrec := searchDepthList_present cs id (d + 1) (by omega)
                ((mem_allIdsList cs id).mp hcs)
              have hne : searchDepthList cs id (d + 1) ≠ -1 := by omega
              simp [searchDepth, if_neg hid, hne]
              omega
            · have hl := searchDepthList_absent cs id (d + 1) (fun hex =>
                hcs ((mem_allIdsList cs id).mpr hex))
              have hss : id ∈ allIdsSlots ss := by
                rcases h with h | h
                · exact absurd h hcs
                · exact h
              have hrec := searchDepthSlots_present ss id (d + 1) (by omega) hss
              simp [searchDepth, if_neg hid, hl]
              omega
          | none =>
            simp only [subtreeIds, List.append_nil] at h
            have hrec := searchDepthList_present cs id (d + 1) (by omega)
              ((mem_allIdsList cs id).mp h)
            have hne : searchDepthList cs id (d + 1) ≠ -1 := by omega
            simp [searchDepth, if_neg hid, hne]
            omega
        | none =>
          cases sl with
          | some ss =>
            simp only [subtreeIds, List.nil_append] at h
            have hrec := searchDepthSlots_present ss id (d + 1) (by omega) h
            simp [searchDepth, if_neg hid]
            omega
          | none =>
            simp [subtreeIds] at h

theorem searchDepthList_present (l : IRList) (id : String) (d : Int)
    (hd : 0 ≤ d) (h : ∃ m ∈ l.toList, id ∈ getAllComponentIds m) :
    d ≤ searchDepthList l id d := by
  cases l with
  | nil => simp [IRList.toList] at h
  | cons hd2 tl =>
    by_cases hh : id ∈ getAllComponentIds hd2
    · have hrec := searchDepth_present hd2 id d hd hh
      have hne : searchDepth hd2 id d ≠ -1 := by omega
      simp [searchDepthList, hne]
      omega
    · have h1 := searchDepth_absent hd2 id d hh
      have ht : ∃ m ∈ tl.toList, id ∈ getAllComponentIds m := by
        obtain ⟨m, hm, hmem⟩ := h
        rcases List.mem_cons.mp (by simpa [IRList.toList] using hm) with hm2 | hm2
        · exact absurd (hm2 ▸ hmem) hh
        · exact ⟨m, hm2, hmem⟩
      have hrec := searchDepthList_present tl id d hd ht
      simp [searchDepthList, h1]
      omega

theorem searchDepthSlots_present (s : IRSlots) (id : String) (d : Int)
    (hd : 0 ≤ d) (h : id ∈ allIdsSlots s) :
    d ≤ searchDepthSlots s id d := by
  cases s with
  | nil => simp [allIdsSlots] at h
  | cons n cs t =>
    simp only [allIdsSlots, List.mem_append] at h
    by_cases hcs : id ∈ allIdsList cs
    · have hrec := searchDepthList_present cs id d hd
        ((mem_allIdsList cs id).mp hcs)
      have hne : searchDepthList cs id d ≠ -1 := by omega
      simp [searchDepthSlots, hne]
      omega
    · have h1 := searchDepthList_absent cs id d (fun hex =>
        hcs ((mem_allIdsList cs id).mpr hex))
      have ht : id ∈ allIdsSlots t := by
        rcases h with h | h
        · exact absurd h hcs
        · exact h
      have hrec := searchDepthSlots_present t id d hd ht
      simp [searchDepthSlots, h1]
      omega
end

theorem noEmptySlotsList_push (l : IRList) (c : IRComponent)
    (hl : noEmptySlotsList l = true) (hc : noEmptySlots c = true) :
    noEmptySlotsList (l.push c) = true := by
  cases l with
  | nil => simp [IRList.push, noEmptySlotsList, hc]
  | cons h t =>
    simp only [noEmptySlotsList, Bool.and_eq_true] at hl
    have := noEmptySlotsList_push t c hl.2 hc
    simp [IRList.push, noEmptySlotsList, hl.1, this]

theorem noEmptySlotsList_insertAt (l : IRList) (j : Nat) (c : IRComponent)
    (hl : noEmptySlotsList l = true) (hc : noEmptySlots c = true) :
    noEmptySlotsList (l.insertAt j c) = true := by
  cases l with
  | nil =>
    cases j with
    | zero => simp [IRList.insertAt, noEmptySlotsList, hc]
    | succ n => simp [IRList.insertAt, noEmptySlotsList, hc]
  | cons h t =>
    simp only [noEmptySlotsList, Bool.and_eq_true] at hl
    cases j with
    | zero => simp [IRList.insertAt, noEmptySlotsList, hc, hl.1, hl.2]
    | succ n =>
      have := noEmptySlotsList_insertAt t n c hl.2 hc
      simp [IRList.insertAt, noEmptySlotsList, hl.1, this]

theorem noEmptySlotsList_erase (l : IRList) (j : Nat)
    (hl : noEmptySlotsList l = true) :
    noEmptySlotsList (l.eraseIdx j) = true := by
  cases l with
  | nil => simp [IRList.eraseIdx, noEmptySlotsList]
  | cons h t =>
    simp only [noEmptySlotsList, Bool.and_eq_true] at hl
    cases j with
    | zero => simp [IRList.eraseIdx, hl.2]
    | succ n =>
      have := noEmptySlotsList_erase t n hl.2
      simp [IRList.eraseIdx, noEmptySlotsList, hl.1, this]

theorem push_not_nil (l : IRList) (c : IRComponent) :
    (l.push c).isNil = false := by
  cases l <;> simp [IRList.push, IRList.isNil]

theorem insertAt_not_nil (l : IRList) (j : Nat) (c : IRComponent) :
    (l.insertAt j c).isNil = false := by
  cases l with
  | nil => cases j <;> simp [IRList.insertAt, IRList.isNil]
  | cons h t => cases j <;> simp [IRList.insertAt, IRList.isNil]

theorem lookup_append_self (s : IRSlots) (k : String) (v : IRList)
    (h : s.lookup k = Option.none) :
    (s.append k v).lookup k = Option.some v := by
  cases s with
  | nil => simp [IRSlots.append, IRSlots.lookup]
  | cons n cs t =>
    simp only [IRSlots.lookup] at h
    by_cases hn : n = k
    · simp [hn] at h
    · simp only [if_neg hn] at h
      have := lookup_append_self t k v h
      simp [IRSlots.append, IRSlots.lookup, if_neg hn, this]

theorem append_set_of_absent (s : IRSlots) (k : String) (v w : IRList)
    (h : s.lookup k = Option.none) :
    (s.append k v).set k w = s.append k w := by
  cases s with
  | nil => simp [IRSlots.append, IRSlots.set]
  | cons n cs t =>
    simp only [IRSlots.lookup] at h
    by_cases hn : n = k
    · simp [hn] at h
    · simp only [if_neg hn] at h
      have := append_set_of_absent t k v w h
      simp [IRSlots.append, IRSlots.set, if_neg hn, this]

theorem noEmptySlotsSlots_append (s : IRSlots) (k : String) (v : IRList)
    (hs : noEmptySlotsSlots s = true) (hv : noEmptySlotsList v = true)
    (hvn : v.isNil = false) :
    noEmptySlotsSlots (s.append k v) = true := by
  cases s with
  | nil => simp [IRSlots.append, noEmptySlotsSlots, noEmptySlotsList, hv, hvn]
  | cons n cs t =>
    simp only [noEmptySlotsSlots, Bool.and_eq_true] at hs
    have := noEmptySlotsSlots_append t k v hs.2 hv hvn
    simp [IRSlots.append, noEmptySlotsSlots, hs.1.1, hs.1.2, this]

theorem noEmptySlotsSlots_set (s : IRSlots) (k : String) (w : IRList)
    (hs : noEmptySlotsSlots s = true) (hw : noEmptySlotsList w = true)
    (hwn : w.isNil = false) :
    noEmptySlotsSlots (s.set k w) = true := by
  cases s with
  | nil => simp [IRSlots.set, noEmptySlotsSlots]
  | cons n cs t =>
    simp only [noEmptySlotsSlots, Bool.and_eq_true] at hs
    by_cases hn : n = k
    · simp [IRSlots.set, if_pos hn, noEmptySlotsSlots, hw, hwn, hs.2]
    · have := noEmptySlotsSlots_set t k w hs.2 hw hwn
      simp [IRSlots.set, if_neg hn, noEmptySlotsSlots, hs.1.1, hs.1.2, this]

theorem lookup_ok (s : IRSlots) (k : String) (a : IRList)
    (hs : noEmptySlotsSlots s = true) (h : s.lookup k = Option.some a) :
    noEmptySlotsList a = true := by
  cases s with
  | nil => simp [IRSlots.lookup] at h
  | cons n cs t =>
    simp only [noEmptySlotsSlots, Bool.and_eq_true] at hs
    simp only [IRSlots.lookup] at h
    by_cases hn : n = k
    · rw [if_pos hn] at h
      rw [← Option.some.inj h]
      exact hs.1.2
    · rw [if_neg hn] at h
      exact lookup_ok t k a hs.2 h

theorem addChild_ok (parent child : IRComponent) (idx : Option Int)
    (hp : noEmptySlots parent = true) (hc : noEmptySlots child = true) :
    noEmptySlots (addChildComponent parent child idx).2 = true := by
  cases parent with
  | mk i t p ch sl =>
    cases ch with
    | some cs =>
      cases sl with
      | some ss =>
        simp only [noEmptySlots, Bool.and_eq_true] at hp
        simp only [addChildComponent]
        cases idx with
        | none =>
          simp [noEmptySlots, noEmptySlotsList_push cs child hp.1 hc, hp.2]
        | some j =>
          dsimp only
          split
          · simp [noEmptySlots, noEmptySlotsList_insertAt cs _ child hp.1 hc, hp.2]
          · simp [noEmptySlots, noEmptySlotsList_push cs child hp.1 hc, hp.2]
      | none =>
        simp only [noEmptySlots, Bool.and_eq_true] at hp
        simp only [addChildComponent]
        cases idx with
        | none =>
          simp [noEmptySlots, noEmptySlotsList_push cs child hp.1 hc]
        | some j =>
          dsimp only
          split
          · simp [noEmptySlots, noEmptySlotsList_insertAt cs _ child hp.1 hc]
          · simp [noEmptySlots, noEmptySlotsList_push cs child hp.1 hc]
    | none =>
      have hnil : noEmptySlotsList IRList.nil = true := by simp [noEmptySlotsList]
      cases sl with
      | some ss =>
        simp only [noEmptySlots, Bool.and_eq_true] at hp
        simp only [addChildComponent]
        cases idx with
        | none =>
          simp [noEmptySlots, noEmptySlotsList_push IRList.nil child hnil hc, hp.2]
        | some j =>
          dsimp only
          split
          · simp [noEmptySlots,
              noEmptySlotsList_insertAt IRList.nil _ child hnil hc, hp.2]
          · simp [noEmptySlots,
              noEmptySlotsList_push IRList.nil child hnil hc, hp.2]
      | none =>
        simp only [addChildComponent]
        cases idx with
        | none =>
          simp [noEmptySlots, noEmptySlotsList_push IRList.nil child hnil hc]
        | some j =>
          dsimp only
          split
          · simp [noEmptySlots,
              noEmptySlotsList_insertAt IRList.nil _ child hnil hc]
          · simp [noEmptySlots,
              noEmptySlotsList_push IRList.nil child hnil hc]

theorem arrAdd_ok (arr : IRList) (child : IRComponent) (idx : Option Int)
    (ha : noEmptySlotsList arr = true) (hc : noEmptySlots child = true) :
    noEmptySlotsList (match idx with
      | Option.some j =>
        if 0 ≤ j ∧ j ≤ (arr.length : Int) then arr.insertAt j.toNat child
        else arr.push child
      | Option.none => arr.push child) = true := by
  cases idx with
  | none => exact noEmptySlotsList_push arr child ha hc
  | some j =>
    dsimp only
    split
    · exact noEmptySlotsList_insertAt arr _ child ha hc
    · exact noEmptySlotsList_push arr child ha hc

theorem arrAdd_not_nil (arr : IRList) (child : IRComponent) (idx : Option Int) :
    (match idx with
      | Option.some j =>
        if 0 ≤ j ∧ j ≤ (arr.length : Int) then arr.insertAt j.toNat child
        else arr.push child
      | Option.none => arr.push child).isNil = false := by
  cases idx with
  | none => exact push_not_nil arr child
  | some j =>
    dsimp only
    split
    · exact insertAt_not_nil arr _ child
    · exact push_not_nil arr child

theorem slotCore_ok (ss : IRSlots) (slotName : String) (child : IRComponent)
    (idx : Option Int) (hss : noEmptySlotsSlots ss = true)
    (hc : noEmptySlots child = true) :
    noEmptySlotsSlots
      ((match ss.lookup slotName with
        | Option.none => ss.append slotName IRList.nil
        | Option.some _ => ss).set slotName
        (match idx with
          | Option.some j =>
            if 0 ≤ j ∧ j ≤ (((match (match ss.lookup slotName with
                | Option.none => ss.append slotName IRList.nil
                | Option.some _ => ss).lookup slotName with
              | Option.some a => a
              | Option.none => IRList.nil)).length : Int) then
              (match (match ss.lookup slotName with
                | Option.none => ss.append slotName IRList.nil
                | Option.some _ => ss).lookup slotName with
              | Option.some a => a
              | Option.none => IRList.nil).insertAt j.toNat child
            else (match (match ss.lookup slotName with
                | Option.none => ss.append slotName IRList.nil
                | Option.some _ => ss).lookup slotName with
              | Option.some a => a
              | Option.none => IRList.nil).push child
          | Option.none => (match (match ss.lookup slotName with
              | Option.none => ss.append slotName IRList.nil
              | Option.some _ => ss).lookup slotName with
            | Option.some a => a
            | Option.none => IRList.nil).push child)) = true := by
  cases hlk : ss.lookup slotName with
  | some a =>
    simp only [hlk]
    have ha := lookup_ok ss slotName a hss hlk
    exact noEmptySlotsSlots_set ss slotName _ hss
      (arrAdd_ok a child idx ha hc) (arrAdd_not_nil a child idx)
  | none =>
    simp only [hlk, lookup_append_self ss slotName IRList.nil hlk]
    rw [append_set_of_absent ss slotName IRList.nil _ hlk]
    exact noEmptySlotsSlots_append ss slotName _ hss
      (arrAdd_ok IRList.nil child idx (by simp [noEmptySlotsList]) hc)
      (arrAdd_not_nil IRList.nil child idx)

theorem addSlot_ok (parent : IRComponent) (slotName : String)
    (child : IRComponent) (idx : Option Int)
    (hp : noEmptySlots parent = true) (hc : noEmptySlots child = true) :
    noEmptySlots (addSlotComponent parent slotName child idx).2 = true := by
  cases parent with
  | mk i t p ch sl =>
    cases ch with
    | some cs =>
      cases sl with
      | some ss =>
        simp only [noEmptySlots, Bool.and_eq_true] at hp
        have hcore := slotCore_ok ss slotName child idx hp.2 hc
        simp only [addSlotComponent]
        simp [noEmptySlots, hp.1, hcore]
      | none =>
        simp only [noEmptySlots, Bool.and_eq_true] at hp
        have hcore := slotCore_ok IRSlots.nil slotName child idx (by
          simp [noEmptySlotsSlots]) hc
        simp only [addSlotComponent]
        simp [noEmptySlots, hp, hcore]
    | none =>
      cases sl with
      | some ss =>
        simp only [noEmptySlots, Bool.and_eq_true] at hp
        have hcore := slotCore_ok ss slotName child idx hp.2 hc
        simp only [addSlotComponent]
        simp [noEmptySlots, hcore]
      | none =>
        have hcore := slotCore_ok IRSlots.nil slotName child idx (by
          simp [noEmptySlotsSlots]) hc
        simp only [addSlotComponent]
        simp [noEmptySlots, hcore]

theorem removeInList_cons_not_nil (h : IRComponent) (t : IRList) (id : String) :
    (removeInList (IRList.cons h t) id).2.isNil = false := by
  simp only [removeInList]
  cases hh : removeComponent h id with
  | mk ok h' => cases ok <;> simp [IRList.isNil]

mutual
theorem remove_ok (c : IRComponent) (id : String)
    (hc : noEmptySlots c = true) :
    noEmptySlots (removeComponent c id).2 = true := by
  cases c with
  | mk i ty p ch sl =>
    cases ch with
    | some cs =>
      cases sl with
      | some ss =>
        simp only [noEmptySlots, Bool.and_eq_true] at hc
        simp only [removeComponent]
        cases hidx : cs.findIdxById id with
        | some j =>
          simp [noEmptySlots, noEmptySlotsList_erase cs j hc.1, hc.2]
        | none =>
          cases hrl : removeInList cs id with
          | mk ok cs' =>
            have hl := removeInList_ok cs id hc.1
            rw [hrl] at hl
            cases ok with
            | true => simp [noEmptySlots, hl, hc.2]
            | false =>
              have hs := removeInSlots_ok ss id hc.2
              simp [noEmptySlots, hc.1, hs]
      | none =>
        simp only [noEmptySlots, Bool.and_eq_true] at hc
        simp only [removeComponent]
        cases hidx : cs.findIdxById id with
        | some j =>
          simp [noEmptySlots, noEmptySlotsList_erase cs j hc.1]
        | none =>
          cases hrl : removeInList cs id with
          | mk ok cs' =>
            have hl := removeInList_ok cs id hc.1
            rw [hrl] at hl
            cases ok with
            | true => simp [noEmptySlots, hl]
            | false => simp [noEmptySlots, hc.1]
    | none =>
      cases sl with
      | some ss =>
        simp only [noEmptySlots, Bool.and_eq_true] at hc
        simp only [removeComponent]
        have hs := removeInSlots_ok ss id hc.2
        simp [noEmptySlots, hs]
      | none =>
        simp [removeComponent, noEmptySlots]

theorem removeInList_ok (l : IRList) (id : String)
    (hl : noEmptySlotsList l = true) :
    noEmptySlotsList (removeInList l id).2 = true := by
  cases l with
  | nil => simp [removeInList, noEmptySlotsList]
  | cons h t =>
    simp only [noEmptySlotsList, Bool.and_eq_true] at hl
    simp only [removeInList]
    cases hh : removeComponent h id with
    | mk ok h' =>
      have hn := remove_ok h id hl.1
      rw [hh] at hn
      cases ok with
      | true => simp [noEmptySlotsList, hn, hl.2]
      | false =>
        have ht := removeInList_ok t id hl.2
        simp [noEmptySlotsList, hl.1, ht]

theorem removeInSlots_ok (s : IRSlots) (id : String)
    (hs : noEmptySlotsSlots s = true) :
    noEmptySlotsSlots (removeInSlots s id).2 = true := by
  cases s with
  | nil => simp [removeInSlots, noEmptySlotsSlots]
  | cons n cs t =>
    simp only [noEmptySlotsSlots, Bool.and_eq_true] at hs
    simp only [removeInSlots]
    cases hidx : cs.findIdxById id with
    | some j =>
      dsimp only
      split
      · exact hs.2
      · rename_i hnn
        simp [noEmptySlotsSlots, noEmptySlotsList_erase cs j hs.1.2, hs.2,
          Bool.not_eq_true'] at hnn ⊢
        exact hnn
    | none =>
      cases hrl : removeInList cs id with
      | mk ok cs' =>
        have hl := removeInList_ok cs id hs.1.2
        rw [hrl] at hl
        cases ok with
        | true =>
          have hnn : cs'.isNil = false := by
            cases cs with
            | nil => simp [removeInList] at hrl
            | cons h2 t2 =>
              have := removeInList_cons_not_nil h2 t2 id
              rw [hrl] at this
              exact this
          simp [noEmptySlotsSlots, hl, hs.2, hnn]
        | false =>
          have ht := removeInSlots_ok t id hs.2
          simp [noEmptySlotsSlots, hs.1.1, hs.1.2, ht]
end

mutual
theorem updateFirstById_ok (c : IRComponent) (id : String)
    (f : IRComponent → IRComponent)
    (Hf : ∀ x, noEmptySlots x = true → noEmptySlots (f x) = true)
    (hc : noEmptySlots c = true) :
    noEmptySlots (updateFirstById c id f).2 = true := by
  cases c with
  | mk i ty p ch sl =>
    by_cases hid : i = id
    · have hu : updateFirstById (IRComponent.mk i ty p ch sl) id f
          = (true, f (IRComponent.mk i ty p ch sl)) := by
        cases ch <;> cases sl <;> simp [updateFirstById, hid]
      rw [hu]
      exact Hf _ hc
    · cases ch with
      | some cs =>
        cases sl with
        | some ss =>
          simp only [noEmptySlots, Bool.and_eq_true] at hc
          simp only [updateFirstById, if_neg hid]
          cases hu : updateInList cs id f with
          | mk ok cs' =>
            have hl := updateInList_ok cs id f Hf hc.1
            rw [hu] at hl
            cases ok with
            | true => simp [noEmptySlots, hl, hc.2]
            | false =>
              have hs := updateInSlots_ok ss id f Hf hc.2
              simp [noEmptySlots, hc.1, hs]
        | none =>
          simp only [noEmptySlots, Bool.and_eq_true] at hc
          simp only [updateFirstById, if_neg hid]
          cases hu : updateInList cs id f with
          | mk ok cs' =>
            have hl := updateInList_ok cs id f Hf hc.1
            rw [hu] at hl
            cases ok with
            | true => simp [noEmptySlots, hl]
            | false => simp [noEmptySlots, hc.1]
      | none =>
        cases sl with
        | some ss =>
          simp only [noEmptySlots, Bool.and_eq_true] at hc
          simp only [updateFirstById, if_neg hid]
          have hs := updateInSlots_ok ss id f Hf hc.2
          simp [noEmptySlots, hs]
        | none =>
          simp [updateFirstById, if_neg hid, noEmptySlots]

theorem updateInList_ok (l : IRList) (id : String)
    (f : IRComponent → IRComponent)
    (Hf : ∀ x, noEmptySlots x = true → noEmptySlots (f x) = true)
    (hl : noEmptySlotsList l = true) :
    noEmptySlotsList (updateInList l id f).2 = true := by
  cases l with
  | nil => simp [updateInList, noEmptySlotsList]
  | cons h t =>
    simp only [noEmptySlotsList, Bool.and_eq_true] at hl
    simp only [updateInList]
    cases hh : updateFirstById h id f with
    | mk ok h' =>
      have hn := updateFirstById_ok h id f Hf hl.1
      rw [hh] at hn
      cases ok with
      | true => simp [noEmptySlotsList, hn, hl.2]
      | false =>
        have ht := updateInList_ok t id f Hf hl.2
        simp [noEmptySlotsList, hl.1, ht]

theorem updateInSlots_ok (s : IRSlots) (id : String)
    (f : IRComponent → IRComponent)
    (Hf : ∀ x, noEmptySlots x = true → noEmptySlots (f x) = true)
    (hs : noEmptySlotsSlots s = true) :
    noEmptySlotsSlots (updateInSlots s id f).2 = true := by
  cases s with
  | nil => simp [updateInSlots, noEmptySlotsSlots]
  | cons n cs t =>
    simp only [noEmptySlotsSlots, Bool.and_eq_true] at hs
    simp only [updateInSlots]
    cases hu : updateInList cs id f with
    | mk ok cs' =>
      have hl := updateInList_ok cs id f Hf hs.1.2
      rw [hu] at hl
      cases ok with
      | true =>
        have hnn : cs'.isNil = false := by
          cases cs with
          | nil => simp [updateInList] at hu
          | cons h2 t2 =>
            have : (updateInList (IRList.cons h2 t2) id f).2.isNil = false := by
              simp only [updateInList]
              cases hh : updateFirstById h2 id f with
              | mk ok2 h2' => cases ok2 <;> simp [IRList.isNil]
            rw [hu] at this
            exact this
        simp [noEmptySlotsSlots, hl, hs.2, hnn]
      | false =>
        have ht := updateInSlots_ok t id f Hf hs.2
        simp [noEmptySlotsSlots, hs.1.1, hs.1.2, ht]
end

mutual
theorem find_ok (c : IRComponent) (id : String) (m : IRComponent)
    (hc : noEmptySlots c = true)
    (h : findComponentById c id = Option.some m) :
    noEmptySlots m = true := by
  cases c with
  | mk i ty p ch sl =>
    by_cases hid : i = id
    · rw [findComponentById_self (IRComponent.mk i ty p ch sl) id
        (by simp [IRComponent.id, hid])] at h
      rw [← Option.some.inj h]
      exact hc
    · cases ch with
      | some cs =>
        cases sl with
        | some ss =>
          simp only [noEmptySlots, Bool.and_eq_true] at hc
          simp only [findComponentById, if_neg hid] at h
          cases hf : findInList cs id with
          | some m0 =>
            rw [hf] at h
            simp only [] at h
            rw [← Option.some.inj h]
            exact findInList_ok cs id m0 hc.1 hf
          | none =>
            rw [hf] at h
            simp only [] at h
            exact findInSlots_ok ss id m hc.2 h
        | none =>
          simp only [noEmptySlots, Bool.and_eq_true] at hc
          simp only [findComponentById, if_neg hid] at h
          cases hf : findInList cs id with
          | some m0 =>
            rw [hf] at h
            simp only [] at h
            rw [← Option.some.inj h]
            exact findInList_ok cs id m0 hc.1 hf
          | none =>
            rw [hf] at h
            simp only [] at h
            cases h
      | none =>
        cases sl with
        | some ss =>
          simp only [noEmptySlots, Bool.and_eq_true] at hc
          simp only [findComponentById, if_neg hid] at h
          exact findInSlots_ok ss id m hc.2 h
        | none =>
          simp [findComponentById, if_neg hid] at h

theorem findInList_ok (l : IRList) (id : String) (m : IRComponent)
    (hl : noEmptySlotsList l = true)
    (h : findInList l id = Option.some m) :
    noEmptySlots m = true := by
  cases l with
  | nil => simp [findInList] at h
  | cons hd t =>
    simp only [noEmptySlotsList, Bool.and_eq_true] at hl
    simp only [findInList] at h
    cases hh : findComponentById hd id with
    | some m0 =>
      rw [hh] at h
      simp only [] at h
      rw [← Option.some.inj h]
      exact find_ok hd id m0 hl.1 hh
    | none =>
      rw [hh] at h
      simp only [] at h
      exact findInList_ok t id m hl.2 h

theorem findInSlots_ok (s : IRSlots) (id : String) (m : IRComponent)
    (hs : noEmptySlotsSlots s = true)
    (h : findInSlots s id = Option.some m) :
    noEmptySlots m = true := by
  cases s with
  | nil => simp [findInSlots] at h
  | cons n cs t =>
    simp only [noEmptySlotsSlots, Bool.and_eq_true] at hs
    simp only [findInSlots] at h
    cases hf : findInList cs id with
    | some m0 =>
      rw [hf] at h
      simp only [] at h
      rw [← Option.some.inj h]
      exact findInList_ok cs id m0 hs.1.2 hf
    | none =>
      rw [hf] at h
      simp only [] at h
      exact findInSlots_ok t id m hs.2 h
end

/-! ## Claim theorems -/

/-- C3: `canContain(parentType, childType)` returns false iff either type is
unregistered, the parent cannot have children, the parent's `maxChildren` is
present and ≤ 0, or the pair is the hard-coded Button ⊃ Row/Stack exclusion —
true in every other case; and under the default schema the containment matrix
is as the spec states.  `canContain` is a function of the schema and the two
type names alone, so the result cannot depend on any node's current child
count. -/
theorem claim_C3 :
    (∀ (schema : IRComponentSchema) (p c : String),
      canContain schema p c = true ↔
        ∃ pd, getComponentType schema p = Option.some pd ∧
          (∃ cd, getComponentType schema c = Option.some cd) ∧
          pd.canHaveChildren = true ∧
          (∀ m, pd.maxChildren = Option.some m → 0 < m) ∧
          ¬(p = "Button" ∧ (c = "Row" ∨ c = "Stack")))
    ∧ canContain DEFAULT_IR_SCHEMA "Button" "Row" = false
    ∧ canContain DEFAULT_IR_SCHEMA "Button" "Stack" = false
    ∧ canContain DEFAULT_IR_SCHEMA "Row" "Button" = true
    ∧ canContain DEFAULT_IR_SCHEMA "Row" "Stack" = true
    ∧ canContain DEFAULT_IR_SCHEMA "Stack" "Row" = true := by
  refine ⟨?_, by decide, by decide, by decide, by decide, by decide⟩
  intro schema p c
  unfold canContain
  cases hp : getComponentType schema p with
  | none => simp
  | some pd =>
    cases hc : getComponentType schema c with
    | none => simp
    | some cd =>
      by_cases hch : pd.canHaveChildren
      · cases hm : pd.maxChildren with
        | none =>
          by_cases hpb : p = "Button" <;> by_cases hcr : c = "Row" <;>
            by_cases hcs : c = "Stack" <;> simp_all
        | some m =>
          by_cases hm0 : m ≤ 0 <;> by_cases hpb : p = "Button" <;>
            by_cases hcr : c = "Row" <;> by_cases hcs : c = "Stack" <;>
            simp_all
      · simp_all

/-- C4: `isSlotAllowed(type, name)` is true iff the name is among the type's
allowed slots or `"main"` is; every slot name is allowed for the default
Row/Stack/Button types (whose allowed slots include `"main"`), and an
unregistered type (empty allowed-slot list) admits no slot name at all. -/
theorem claim_C4 :
    (∀ (schema : IRComponentSchema) (t n : String),
      isSlotAllowed schema t n = true ↔
        (n ∈ getAllowedSlots schema t ∨ "main" ∈ getAllowedSlots schema t))
    ∧ (∀ n, isSlotAllowed DEFAULT_IR_SCHEMA "Row" n = true)
    ∧ (∀ n, isSlotAllowed DEFAULT_IR_SCHEMA "Stack" n = true)
    ∧ (∀ n, isSlotAllowed DEFAULT_IR_SCHEMA "Button" n = true)
    ∧ (∀ (schema : IRComponentSchema) (t n : String),
        getComponentType schema t = Option.none →
        isSlotAllowed schema t n = false) := by
  refine ⟨?_, ?_, ?_, ?_, ?_⟩
  · intro schema t n
    simp [isSlotAllowed, List.elem_iff]
  · intro n
    have h : getAllowedSlots DEFAULT_IR_SCHEMA "Row" = ["main"] := rfl
    simp [isSlotAllowed, h]
  · intro n
    have h : getAllowedSlots DEFAULT_IR_SCHEMA "Stack" = ["main"] := rfl
    simp [isSlotAllowed, h]
  · intro n
    have h : getAllowedSlots DEFAULT_IR_SCHEMA "Button"
        = ["main", "icon", "content"] := rfl
    simp [isSlotAllowed, h]
  · intro schema t n h
    have hs : getAllowedSlots schema t = [] := by
      simp [getAllowedSlots, h]
    simp [isSlotAllowed, hs]

/-- C4 witness: a concrete unregistered type rejects a concrete slot name,
and Row accepts an arbitrary unlisted name. -/
theorem claim_C4_witness :
    getComponentType DEFAULT_IR_SCHEMA "Bogus" = Option.none ∧
    isSlotAllowed DEFAULT_IR_SCHEMA "Bogus" "icon" = false ∧
    isSlotAllowed DEFAULT_IR_SCHEMA "Row" "anyUnlistedName" = true :=
  ⟨by decide, claim_C4.2.2.2.2 DEFAULT_IR_SCHEMA "Bogus" "icon" (by decide),
    claim_C4.2.1 "anyUnlistedName"⟩

/-- The C2 counterexample tree: an unregistered-type root with an
unregistered-type child. -/
def cexC2_child : IRComponent :=
  IRComponent.mk "q" "AlsoBogus" Option.none OptIRList.none OptIRSlots.none

def cexC2_tree : IRComponent :=
  IRComponent.mk "p" "Bogus" Option.none
    (OptIRList.some (IRList.cons cexC2_child IRList.nil)) OptIRSlots.none

/-- C2 counterexample: the claim says the children of an unregistered-type
node are still walked, so the unregistered child "q" should contribute its own
invalid-type error; in fact `validate` returns exactly one error, for the root
"p" alone, and no error mentions "q". -/
theorem claim_C2_counterexample :
    hasComponentType DEFAULT_IR_SCHEMA "Bogus" = false ∧
    hasComponentType DEFAULT_IR_SCHEMA "AlsoBogus" = false ∧
    (validate DEFAULT_IR_SCHEMA cexC2_tree).isValid = false ∧
    (validate DEFAULT_IR_SCHEMA cexC2_tree).errors =
      [⟨"p", "Unknown component type: Bogus",
        IRValidationErrorType.INVALID_TYPE, ["p"]⟩] ∧
    ((validate DEFAULT_IR_SCHEMA cexC2_tree).errors.map
      IRValidationError.componentId).contains "q" = false := by
  exact ⟨rfl, rfl, rfl, by decide, by decide⟩

/-- C2 (amended): for every node whose type is not registered in the schema,
`validateComponent` records exactly one invalid-type error for that node and
stops: the structural sub-checks are skipped and the node's children and slot
members are not walked, so descendants of an unregistered-type node contribute
no errors and no warnings of their own. -/
theorem claim_C2 (schema : IRComponentSchema) (c : IRComponent)
    (path : List String) (h : hasComponentType schema c.type = false) :
    validateComponent schema c path =
      ([⟨c.id, "Unknown component type: " ++ c.type,
        IRValidationErrorType.INVALID_TYPE, path ++ [c.id]⟩], []) := by
  cases c with
  | mk i t p ch sl =>
    simp only [IRComponent.type] at h
    simp [validateComponent, h, IRComponent.id, IRComponent.type]

/-- C2 witness: the amended claim applied to a concrete unregistered node
with a child — the child contributes nothing. -/
theorem claim_C2_witness :
    hasComponentType DEFAULT_IR_SCHEMA
      (IRComponent.mk "w" "Mystery" Option.none
        (OptIRList.some (IRList.cons
          (IRComponent.mk "w2" "Row" Option.none OptIRList.none OptIRSlots.none)
          IRList.nil)) OptIRSlots.none).type = false ∧
    validateComponent DEFAULT_IR_SCHEMA
      (IRComponent.mk "w" "Mystery" Option.none
        (OptIRList.some (IRList.cons
          (IRComponent.mk "w2" "Row" Option.none OptIRList.none OptIRSlots.none)
          IRList.nil)) OptIRSlots.none) [] =
      ([⟨"w", "Unknown component type: Mystery",
        IRValidationErrorType.INVALID_TYPE, ["w"]⟩], []) :=
  ⟨by decide, claim_C2 DEFAULT_IR_SCHEMA _ [] (by decide)⟩

/-- Fixed ambient JS state for the C6 counterexample. -/
def cexC6_env : JsEnv := ⟨0, "abcde"⟩

/-- C6 counterexample: the claim says `createNode("Button")` seeds the
registry's default props (variant/size/disabled); the factory actually leaves
props empty — it never consults `getDefaultProps`. -/
theorem claim_C6_counterexample :
    getDefaultProps DEFAULT_IR_SCHEMA "Button" =
      [("variant", Val.str "primary"), ("size", Val.str "md"),
       ("disabled", Val.bool false)] ∧
    (createIRComponent cexC6_env "Button" Option.none Option.none).props =
      Option.some [] ∧
    (createIRComponent cexC6_env "Button" Option.none Option.none).props ≠
      Option.some (getDefaultProps DEFAULT_IR_SCHEMA "Button") := by
  exact ⟨rfl, rfl, by decide⟩

/-- C6 (amended): `createIRComponent` ignores the registry's defaults — the
node's props are exactly the caller-supplied props (empty when omitted); it
seeds `children: []` precisely for the hard-coded tags Row, Stack and Button
(under the default schema these are exactly the container-capable types) and
`slots: \x7b\x7d` precisely for Button; any other tag — including a newly
registered container-capable type, which the closed switch cannot know —
receives neither field. -/
theorem claim_C6 (env : JsEnv) (type : String) (props : Option Props)
    (options : Option IROptions) :
    (createIRComponent env type props options).type = type ∧
    (createIRComponent env type props options).props =
      Option.some (props.getD []) ∧
    (createIRComponent env type props options).children =
      (if type = "Row" ∨ type = "Stack" ∨ type = "Button"
       then OptIRList.some IRList.nil else OptIRList.none) ∧
    (createIRComponent env type props options).slots =
      (if type = "Button" then OptIRSlots.some IRSlots.nil
       else OptIRSlots.none) := by
  unfold createIRComponent
  cases options <;> cases props <;>
    (try dsimp only) <;> split <;>
    simp_all [IRComponent.type, IRComponent.props, IRComponent.children,
      IRComponent.slots, Option.getD]

/-- The C1 counterexample tree: two siblings share the id "x". -/
def cexC1_tree : IRComponent :=
  IRComponent.mk "r" "Row" Option.none
    (OptIRList.some (IRList.cons
      (IRComponent.mk "x" "Button" Option.none OptIRList.none OptIRSlots.none)
      (IRList.cons
        (IRComponent.mk "x" "Stack" Option.none OptIRList.none OptIRSlots.none)
        IRList.nil))) OptIRSlots.none

/-- C1 counterexample: with duplicate ids the claim's conclusion "the tree no
longer contains any node with the moved id" fails — `move` finds and removes
the first "x", the new-parent lookup fails, `move` returns false, yet a node
with id "x" is still in the tree. -/
theorem claim_C1_counterexample :
    (findComponentById cexC1_tree "x").isSome = true ∧
    (removeComponent cexC1_tree "x").1 = true ∧
    findComponentById (removeComponent cexC1_tree "x").2 "zzz" = Option.none ∧
    (moveComponent cexC1_tree "x" "zzz" Option.none).1 = false ∧
    memberId (moveComponent cexC1_tree "x" "zzz" Option.none).2 "x" = true := by
  exact ⟨rfl, rfl, rfl, rfl, rfl⟩

/-- C1 (amended): when `move` finds and removes the node but the subsequent
lookup of the new parent fails, it returns false and the resulting tree is
exactly the tree after the removal — the original's first match has been
excised and the duplicate is never attached; when at most one node of the
tree carried the moved id, the tree no longer contains any node with that
id. -/
theorem claim_C1 (root : IRComponent) (id pid : String)
    (pos : Option MovePosition)
    (h1 : (findComponentById root id).isSome = true)
    (h2 : (removeComponent root id).1 = true)
    (h3 : findComponentById (removeComponent root id).2 pid = Option.none) :
    moveComponent root id pid pos = (false, (removeComponent root id).2) ∧
    (countId root id ≤ 1 →
      memberId (removeComponent root id).2 id = false) := by
  obtain ⟨comp, hcomp⟩ := Option.isSome_iff_exists.mp h1
  constructor
  · cases hrem : removeComponent root id with
    | mk ok r1 =>
      rw [hrem] at h2 h3
      cases ok with
      | false => simp at h2
      | true => simp [moveComponent, hcomp, hrem, h3]
  · intro hcnt
    have hdec := removeComponent_count root id h2
    have hzero : (getAllComponentIds (removeComponent root id).2).count id = 0 := by
      have hle : (getAllComponentIds root).count id ≤ 1 := by
        simpa [countId] using hcnt
      omega
    have hnm : ¬ id ∈ getAllComponentIds (removeComponent root id).2 := by
      intro hm
      have := List.count_pos_iff.mpr hm
      omega
    simp [memberId, hnm]

/-- The C1 witness tree: a root with the single child "x". -/
def witC1_tree : IRComponent :=
  IRComponent.mk "r" "Row" Option.none
    (OptIRList.some (IRList.cons
      (IRComponent.mk "x" "Button" Option.none OptIRList.none OptIRSlots.none)
      IRList.nil)) OptIRSlots.none

theorem claim_C1_witness :
    (findComponentById witC1_tree "x").isSome = true ∧
    (removeComponent witC1_tree "x").1 = true ∧
    findComponentById (removeComponent witC1_tree "x").2 "q" = Option.none ∧
    countId witC1_tree "x" ≤ 1 ∧
    moveComponent witC1_tree "x" "q" Option.none
      = (false, (removeComponent witC1_tree "x").2) ∧
    memberId (removeComponent witC1_tree "x").2 "x" = false := by
  refine ⟨rfl, rfl, rfl, by decide,
    (claim_C1 witC1_tree "x" "q" Option.none rfl rfl rfl).1,
    (claim_C1 witC1_tree "x" "q" Option.none rfl rfl rfl).2 (by decide)⟩

/-- C5 counterexample data: the pre-order first match for id "d" is the
grandchild X (a Stack) inside child A, but a sibling B (a Button) also has
id "d". -/
def cexC5_X : IRComponent :=
  IRComponent.mk "d" "Stack" Option.none OptIRList.none OptIRSlots.none

def cexC5_tree : IRComponent :=
  IRComponent.mk "r" "Row" Option.none
    (OptIRList.some (IRList.cons
      (IRComponent.mk "a" "Row" Option.none
        (OptIRList.some (IRList.cons cexC5_X IRList.nil)) OptIRSlots.none)
      (IRList.cons
        (IRComponent.mk "d" "Button" Option.none OptIRList.none OptIRSlots.none)
        IRList.nil))) OptIRSlots.none

/-- C5 counterexample: `findById` returns the deep Stack node X, but `remove`
deletes the direct child B instead — afterwards `findById` still returns the
very node the claim says was removed, and `remove` disagrees with the
spec-order removal `specRemove`. -/
theorem claim_C5_counterexample :
    findComponentById cexC5_tree "d" = Option.some cexC5_X ∧
    (removeComponent cexC5_tree "d").1 = true ∧
    findComponentById (removeComponent cexC5_tree "d").2 "d"
      = Option.some cexC5_X ∧
    removeComponent cexC5_tree "d" ≠ specRemove cexC5_tree "d" := by
  exact ⟨rfl, rfl, rfl, by decide⟩

/-- C5 (amended): `remove` searches in its own order — at each node the
direct entries of a container are scanned before any descent — so with
duplicate ids the removed node need not be `findById`'s pre-order first
match; `remove` returns true exactly when some node below the root carries
the id, and returns false leaving the tree unchanged otherwise. -/
theorem claim_C5 (root : IRComponent) (id : String) :
    ((removeComponent root id).1 = true ↔ memberIdBelow root id = true) ∧
    ((removeComponent root id).1 = false →
      removeComponent root id = (false, root)) := by
  constructor
  · rw [removeComponent_found]
    simp [memberIdBelow, List.elem_iff]
  · intro hf
    have h2 := remove_fail_eq root id hf
    cases hrem : removeComponent root id with
    | mk ok r1 =>
      rw [hrem] at hf h2
      rw [Prod.mk.injEq]
      exact ⟨hf, h2⟩

/-- The C5 witness tree: a root with one Button child "b". -/
def witC5_tree : IRComponent :=
  IRComponent.mk "r" "Row" Option.none
    (OptIRList.some (IRList.cons
      (IRComponent.mk "b" "Button" Option.none OptIRList.none OptIRSlots.none)
      IRList.nil)) OptIRSlots.none

theorem claim_C5_witness :
    ((removeComponent witC5_tree "b").1 = true
      ↔ memberIdBelow witC5_tree "b" = true) ∧
    removeComponent witC5_tree "zz" = (false, witC5_tree) :=
  ⟨(claim_C5 witC5_tree "b").1, (claim_C5 witC5_tree "zz").2 rfl⟩

/-- The C7 concrete tree: a Button whose "icon" slot holds one node. -/
def cexC7_tree : IRComponent :=
  IRComponent.mk "p" "Button" Option.none OptIRList.none
    (OptIRSlots.some (IRSlots.cons "icon"
      (IRList.cons
        (IRComponent.mk "i" "Button" Option.none OptIRList.none OptIRSlots.none)
        IRList.nil)
      IRSlots.nil))

/-- C7: the invariant "no slot entry is an empty array" is preserved by every
mutation-engine operation — `createNode`, `addChild`, `addToSlot`, `remove`,
`move` and `updateProperties` — and in particular removing the last member
of a named slot deletes that slot entry from the mapping. -/
theorem claim_C7 :
    (∀ (env : JsEnv) (ty : String) (props : Option Props)
        (opts : Option IROptions),
      noEmptySlots (createIRComponent env ty props opts) = true) ∧
    (∀ (parent child : IRComponent) (idx : Option Int),
      noEmptySlots parent = true → noEmptySlots child = true →
      noEmptySlots (addChildComponent parent child idx).2 = true) ∧
    (∀ (parent : IRComponent) (name : String) (child : IRComponent)
        (idx : Option Int),
      noEmptySlots parent = true → noEmptySlots child = true →
      noEmptySlots (addSlotComponent parent name child idx).2 = true) ∧
    (∀ (root : IRComponent) (id : String),
      noEmptySlots root = true →
      noEmptySlots (removeComponent root id).2 = true) ∧
    (∀ (root : IRComponent) (id pid : String) (pos : Option MovePosition),
      noEmptySlots root = true →
      noEmptySlots (moveComponent root id pid pos).2 = true) ∧
    (∀ (root : IRComponent) (id : String) (patch : Props),
      noEmptySlots root = true →
      noEmptySlots (updateComponentProps root id patch).2 = true) ∧
    removeComponent cexC7_tree "i" =
      (true, IRComponent.mk "p" "Button" Option.none OptIRList.none
        (OptIRSlots.some IRSlots.nil)) := by
  refine ⟨?_, ?_, ?_, ?_, ?_, ?_, by decide⟩
  · intro env ty props opts
    unfold createIRComponent
    cases opts <;> cases props <;> (try dsimp only) <;> split <;>
      simp_all [noEmptySlots, noEmptySlotsList, noEmptySlotsSlots]
  · exact fun parent child idx hp hc => addChild_ok parent child idx hp hc
  · exact fun parent n child idx hp hc => addSlot_ok parent n child idx hp hc
  · exact fun root id h => remove_ok root id h
  · intro root id pid pos h
    cases hfind : findComponentById root id with
    | none =>
      simp [moveComponent, hfind]
      exact h
    | some comp =>
      have hcomp : noEmptySlots (cloneIRComponent comp) = true :=
        find_ok root id comp h hfind
      cases hrem : removeComponent root id with
      | mk ok r1 =>
        have hr1 : noEmptySlots r1 = true := by
          have := remove_ok root id h
          rw [hrem] at this
          exact this
        cases ok with
        | false =>
          simp [moveComponent, hfind, hrem]
          exact hr1
        | true =>
          cases hfp : findComponentById r1 pid with
          | none =>
            simp [moveComponent, hfind, hrem, hfp]
            exact hr1
          | some np =>
            cases pos with
            | none =>
              simp [moveComponent, hfind, hrem, hfp]
              exact updateFirstById_ok r1 pid _
                (fun x hx => addChild_ok x (cloneIRComponent comp) _ hx hcomp) hr1
            | some mp =>
              cases mp with
              | mk ptype pslot pidx =>
                cases ptype with
                | children =>
                  simp [moveComponent, hfind, hrem, hfp]
                  exact updateFirstById_ok r1 pid _
                    (fun x hx => addChild_ok x (cloneIRComponent comp) _ hx hcomp)
                    hr1
                | slot =>
                  cases pslot with
                  | none =>
                    simp [moveComponent, hfind, hrem, hfp]
                    exact updateFirstById_ok r1 pid _
                      (fun x hx => addChild_ok x (cloneIRComponent comp) _ hx hcomp)
                      hr1
                  | some s =>
                    by_cases hse : s = ""
                    · simp [moveComponent, hfind, hrem, hfp, hse]
                      exact updateFirstById_ok r1 pid _
                        (fun x hx => addChild_ok x (cloneIRComponent comp) _ hx hcomp)
                        hr1
                    · simp [moveComponent, hfind, hrem, hfp, hse]
                      exact updateFirstById_ok r1 pid _
                        (fun x hx =>
                          addSlot_ok x s (cloneIRComponent comp) _ hx hcomp)
                        hr1
  · intro root id patch h
    cases hfind : findComponentById root id with
    | none =>
      simp [updateComponentProps, hfind]
      exact h
    | some comp =>
      simp [updateComponentProps, hfind]
      refine updateFirstById_ok root id _ ?_ h
      intro x hx
      cases x with
      | mk xi xt xp xch xsl =>
        cases xch <;> cases xsl <;> simp_all [noEmptySlots]

/-- The C7 witness tree: a root with children "x" and "y". -/
def witC7_tree : IRComponent :=
  IRComponent.mk "w" "Row" Option.none
    (OptIRList.some (IRList.cons
      (IRComponent.mk "x" "Button" Option.none OptIRList.none OptIRSlots.none)
      (IRList.cons
        (IRComponent.mk "y" "Stack" Option.none
          (OptIRList.some IRList.nil) OptIRSlots.none)
        IRList.nil))) OptIRSlots.none

/-- C7 witness: the preservation conjuncts applied to a concrete tree —
`addToSlot`, `remove` and `move` keep the invariant. -/
theorem claim_C7_witness :
    noEmptySlots witC7_tree = true ∧
    noEmptySlots (addSlotComponent witC7_tree "icon"
      (IRComponent.mk "n" "Button" Option.none OptIRList.none OptIRSlots.none)
      Option.none).2 = true ∧
    noEmptySlots (removeComponent witC7_tree "x").2 = true ∧
    noEmptySlots (moveComponent witC7_tree "x" "y" Option.none).2 = true := by
  refine ⟨by decide, ?_, ?_, ?_⟩
  · exact claim_C7.2.2.1 witC7_tree "icon"
      (IRComponent.mk "n" "Button" Option.none OptIRList.none OptIRSlots.none)
      Option.none (by decide) (by decide)
  · exact claim_C7.2.2.2.1 witC7_tree "x" (by decide)
  · exact claim_C7.2.2.2.2.1 witC7_tree "x" "y" Option.none (by decide)

/-- C8: move relocation happy path — for a root `R` with children exactly
`[B, C]`, `C` with an empty children array and the three ids distinct,
`move(R, B.id, C.id)` succeeds and produces `R.children == [C]` with
`C.children == [B]`, the moved node unchanged (same id). -/
theorem claim_C8 (R B C : IRComponent)
    (hch : R.children = OptIRList.some (IRList.cons B (IRList.cons C IRList.nil)))
    (hcc : C.children = OptIRList.some IRList.nil)
    (h1 : B.id ≠ R.id) (h2 : C.id ≠ R.id) (h3 : B.id ≠ C.id) :
    moveComponent R B.id C.id Option.none =
      (true, IRComponent.mk R.id R.type R.props
        (OptIRList.some (IRList.cons
          (IRComponent.mk C.id C.type C.props
            (OptIRList.some (IRList.cons B IRList.nil)) C.slots)
          IRList.nil))
        R.slots) := by
  cases R with
  | mk r rt rp rch rsl =>
    cases B with
    | mk bi bt bp bch bsl =>
      simp only [IRComponent.children, IRComponent.id, IRComponent.type,
        IRComponent.props, IRComponent.slots] at hch hcc h1 h2 h3 ⊢
      subst hch
      cases C with
      | mk ci ct cp cch csl =>
        simp only [IRComponent.children, IRComponent.id, IRComponent.type,
          IRComponent.props, IRComponent.slots] at hcc h2 h3 ⊢
        subst hcc
        have hrB : ¬ (r = bi) := fun h => h1 h.symm
        have hrC : ¬ (r = ci) := fun h => h2 h.symm
        have hBC : ¬ (bi = ci) := h3
        cases rsl <;> cases csl <;> cases bch <;> cases bsl <;>
          simp [moveComponent, findComponentById, findInList, removeComponent,
            updateFirstById, updateInList, addChildComponent, cloneIRComponent,
            IRList.findIdxById, IRList.eraseIdx, IRList.push, IRComponent.id,
            hrB, hrC, hBC]

/-- C8 witness data. -/
def witC8_B : IRComponent :=
  IRComponent.mk "b" "Button" Option.none OptIRList.none OptIRSlots.none

def witC8_C : IRComponent :=
  IRComponent.mk "c" "Row" Option.none (OptIRList.some IRList.nil) OptIRSlots.none

def witC8_R : IRComponent :=
  IRComponent.mk "r" "Row" Option.none
    (OptIRList.some (IRList.cons witC8_B (IRList.cons witC8_C IRList.nil)))
    OptIRSlots.none

theorem claim_C8_witness :
    moveComponent witC8_R "b" "c" Option.none =
      (true, IRComponent.mk "r" "Row" Option.none
        (OptIRList.some (IRList.cons
          (IRComponent.mk "c" "Row" Option.none
            (OptIRList.some (IRList.cons witC8_B IRList.nil)) OptIRSlots.none)
          IRList.nil))
        OptIRSlots.none) :=
  claim_C8 witC8_R witC8_B witC8_C rfl rfl
    (by decide) (by decide) (by decide)

/-- The C9 scenario tree: root `r` with child `c` (which holds grandchild
`g`) and one named-slot member `s`. -/
def c9Tree (r c g s : String) : IRComponent :=
  IRComponent.mk r "Row" Option.none
    (OptIRList.some (IRList.cons
      (IRComponent.mk c "Row" Option.none
        (OptIRList.some (IRList.cons
          (IRComponent.mk g "Button" Option.none OptIRList.none OptIRSlots.none)
          IRList.nil)) OptIRSlots.none)
      IRList.nil))
    (OptIRSlots.some (IRSlots.cons "icon"
      (IRList.cons
        (IRComponent.mk s "Button" Option.none OptIRList.none OptIRSlots.none)
        IRList.nil)
      IRSlots.nil))

/-- C9: `getDepth` returns 0 for the root's own id, 1 for a direct child (in
`children` or in a named slot), 2 for a node two container levels deep, and
the sentinel −1 exactly for the ids present nowhere in the tree. -/
theorem claim_C9 :
    (∀ root : IRComponent, getComponentDepth root root.id = 0) ∧
    (∀ (root : IRComponent) (id : String),
      getComponentDepth root id = -1 ↔ memberId root id = false) ∧
    (∀ r c g s : String, r ≠ c → r ≠ g → r ≠ s → c ≠ g → c ≠ s → g ≠ s →
      getComponentDepth (c9Tree r c g s) c = 1 ∧
      getComponentDepth (c9Tree r c g s) s = 1 ∧
      getComponentDepth (c9Tree r c g s) g = 2) := by
  refine ⟨?_, ?_, ?_⟩
  · intro root
    cases root with
    | mk i t p ch sl =>
      cases ch <;> cases sl <;>
        simp [getComponentDepth, searchDepth, IRComponent.id]
  · intro root id
    constructor
    · intro h
      cases hmem : memberId root id with
      | false => rfl
      | true =>
        have hm : id ∈ getAllComponentIds root := by
          simpa [memberId, List.elem_iff] using hmem
        have := searchDepth_present root id 0 (le_refl 0) hm
        simp only [getComponentDepth] at h
        omega
    · intro h
      have hnm : ¬ id ∈ getAllComponentIds root := by
        intro hm
        have : memberId root id = true := by
          simpa [memberId, List.elem_iff] using hm
        rw [h] at this
        cases this
      simpa [getComponentDepth] using searchDepth_absent root id 0 hnm
  · intro r c g s hrc hrg hrs hcg hcs hgs
    have hcr : ¬ (r = c) := hrc
    have hgr : ¬ (r = g) := hrg
    have hsr : ¬ (r = s) := hrs
    have hgc : ¬ (c = g) := hcg
    have hsc : ¬ (c = s) := hcs
    have hsg : ¬ (g = s) := hgs
    have hgc' : ¬ (g = c) := fun h => hcg h.symm
    have hcg2 : ¬ (c = g) := hcg
    refine ⟨?_, ?_, ?_⟩ <;>
      simp [c9Tree, getComponentDepth, searchDepth, searchDepthList,
        searchDepthSlots, hcr, hgr, hsr, hgc, hsc, hsg, hgc']

theorem claim_C9_witness :
    getComponentDepth (c9Tree "r" "c" "g" "s") ("r") = 0 ∧
    (getComponentDepth (c9Tree "r" "c" "g" "s") "zz" = -1) ∧
    getComponentDepth (c9Tree "r" "c" "g" "s") "c" = 1 ∧
    getComponentDepth (c9Tree "r" "c" "g" "s") "s" = 1 ∧
    getComponentDepth (c9Tree "r" "c" "g" "s") "g" = 2 := by
  have h3 := claim_C9.2.2 "r" "c" "g" "s" (by decide) (by decide) (by decide)
    (by decide) (by decide) (by decide)
  exact ⟨claim_C9.1 (c9Tree "r" "c" "g" "s"),
    (claim_C9.2.1 (c9Tree "r" "c" "g" "s") "zz").mpr (by decide),
    h3.1, h3.2.1, h3.2.2⟩

theorem propLookup_map_set_ne (a : Props) (kk k : String) (v : Val)
    (h : kk ≠ k) :
    propLookup (a.map (fun kv => if kv.1 == kk then (kv.1, v) else kv)) k
      = propLookup a k := by
  induction a with
  | nil => simp [propLookup]
  | cons hd t ih =>
    by_cases hk : hd.1 == k
    · have hkk : ¬ (hd.1 == kk) = true := by
        simp only [beq_iff_eq] at hk ⊢
        rw [hk]
        exact fun he => h he.symm
      simp [propLookup, List.find?, hk, hkk]
    · have hkf : (hd.1 == k) = false := by simpa using hk
      by_cases hkk : (hd.1 == kk) = true
      · simp only [propLookup, List.map, List.find?, if_pos hkk]
        rw [hkf]
        exact ih
      · simp only [propLookup, List.map, List.find?, if_neg hkk]
        rw [hkf]
        exact ih

theorem propLookup_append_single_ne (a : Props) (kk k : String) (v : Val)
    (h : kk ≠ k) :
    propLookup (a ++ [(kk, v)]) k = propLookup a k := by
  induction a with
  | nil =>
    have hkf : (kk == k) = false := by simpa using h
    simp [propLookup, List.find?, hkf]
  | cons hd t ih =>
    by_cases hk : (hd.1 == k) = true
    · simp [propLookup, List.find?, hk]
    · simp only [propLookup, List.cons_append, List.find?, if_neg hk]
      rw [show (hd.1 == k) = false by simpa using hk]
      exact ih

theorem propLookup_recordSet_ne (a : Props) (kk k : String) (v : Val)
    (h : kk ≠ k) :
    propLookup (recordSet a kk v) k = propLookup a k := by
  unfold recordSet
  split
  · exact propLookup_map_set_ne a kk k v h
  · exact propLookup_append_single_ne a kk k v h

theorem propLookup_recordMerge_none (a b : Props) (k : String)
    (h : propLookup b k = Option.none) :
    propLookup (recordMerge a b) k = propLookup a k := by
  induction b generalizing a with
  | nil => simp [recordMerge]
  | cons hd t ih =>
    by_cases hk : (hd.1 == k) = true
    · simp [propLookup, List.find?, hk] at h
    · have ht : propLookup t k = Option.none := by
        simp only [propLookup, List.find?, if_neg hk] at h
        rw [show (hd.1 == k) = false by simpa using hk] at h
        exact h
      have hstep : recordMerge a (hd :: t) = recordMerge (recordSet a hd.1 hd.2) t := by
        simp [recordMerge]
      rw [hstep, ih _ ht]
      exact propLookup_recordSet_ne a hd.1 k hd.2 (by simpa using hk)

/-- The node rewrite used by `updateComponentProps`: shallow-merge the
patch over the existing props (empty object when `props` is absent). -/
def propsSetter (patch : Props) : IRComponent → IRComponent :=
  fun c => match c with
  | .mk i t p ch sl =>
    .mk i t
      (Option.some (recordMerge
        (match p with | Option.some m => m | Option.none => []) patch))
      ch sl

theorem updateComponentProps_eq (root : IRComponent) (id : String)
    (patch : Props) (c0 : IRComponent)
    (hfind : findComponentById root id = Option.some c0) :
    updateComponentProps root id patch
      = updateFirstById root id (propsSetter patch) := by
  simp only [updateComponentProps, hfind]
  rfl

/-- C10: `updateProperties` frame conditions — when the target id is absent
the call fails and returns the tree unchanged; when present it succeeds, the
target node afterwards carries the shallow merge of patch over its old props
with id, type, children and slots untouched, the set of ids is unchanged,
every other node keeps its props, and keys absent from the patch keep their
old value in the merge. -/
theorem claim_C10 (root : IRComponent) (id : String) (patch : Props) :
    (findComponentById root id = Option.none →
      updateComponentProps root id patch = (false, root)) ∧
    (∀ c0 : IRComponent, findComponentById root id = Option.some c0 →
      (updateComponentProps root id patch).1 = true ∧
      findComponentById (updateComponentProps root id patch).2 id =
        Option.some (IRComponent.mk c0.id c0.type
          (Option.some (recordMerge (c0.props.getD []) patch))
          c0.children c0.slots) ∧
      getAllComponentIds (updateComponentProps root id patch).2
        = getAllComponentIds root ∧
      (∀ id' : String, id' ≠ id →
        (findComponentById (updateComponentProps root id patch).2 id').map
          IRComponent.props
          = (findComponentById root id').map IRComponent.props) ∧
      (∀ k : String, propLookup patch k = Option.none →
        propLookup (recordMerge (c0.props.getD []) patch) k
          = propLookup (c0.props.getD []) k)) := by
  have Hid : ∀ x : IRComponent, (propsSetter patch x).id = x.id := by
    intro x; cases x; rfl
  have Hty : ∀ x : IRComponent, (propsSetter patch x).type = x.type := by
    intro x; cases x; rfl
  have Hch : ∀ x : IRComponent, (propsSetter patch x).children = x.children := by
    intro x; cases x; rfl
  have Hsl : ∀ x : IRComponent, (propsSetter patch x).slots = x.slots := by
    intro x; cases x; rfl
  have Hids : ∀ x : IRComponent,
      getAllComponentIds (propsSetter patch x) = getAllComponentIds x := by
    intro x
    cases x with
    | mk i t p ch sl =>
      rw [show propsSetter patch (IRComponent.mk i t p ch sl)
          = IRComponent.mk i t
              (Option.some (recordMerge
                (match p with | Option.some m => m | Option.none => []) patch))
              ch sl from rfl]
      rw [getAllComponentIds_mk, getAllComponentIds_mk]
      rfl
  constructor
  · intro h
    simp [updateComponentProps, h]
  · intro c0 hfind
    rw [updateComponentProps_eq root id patch c0 hfind]
    refine ⟨?_, ?_, ?_, ?_, ?_⟩
    · exact (updateFirstById_found_iff root id (propsSetter patch)).mpr
        ((findComponentById_isSome root id).mp (by rw [hfind]; rfl))
    · rw [updateFirstById_found root id (propsSetter patch) c0 Hid hfind]
      cases c0 with
      | mk i t p ch sl =>
        cases p <;> rfl
    · exact updateFirstById_allIds root id (propsSetter patch) Hids
    · intro id' hne
      exact updateFirstById_find_other root id id' (propsSetter patch)
        Hid Hty Hch Hsl hne
    · intro k hk
      exact propLookup_recordMerge_none (c0.props.getD []) patch k hk

/-- C10 witness data: root with one child carrying props. -/
def witC10_child : IRComponent :=
  IRComponent.mk "b1" "Button"
    (Option.some [("variant", Val.str "primary"), ("size", Val.str "md")])
    OptIRList.none OptIRSlots.none

def witC10_root : IRComponent :=
  IRComponent.mk "r1" "Row" Option.none
    (OptIRList.some (IRList.cons witC10_child IRList.nil)) OptIRSlots.none

theorem claim_C10_witness :
    updateComponentProps witC10_root "zz" [("variant", Val.str "outline")]
      = (false, witC10_root) ∧
    ((updateComponentProps witC10_root "b1"
        [("variant", Val.str "outline")]).1 = true ∧
      findComponentById
        (updateComponentProps witC10_root "b1"
          [("variant", Val.str "outline")]).2 "b1"
        = Option.some (IRComponent.mk "b1" "Button"
            (Option.some [("variant", Val.str "outline"),
              ("size", Val.str "md")])
            OptIRList.none OptIRSlots.none) ∧
      getAllComponentIds
        (updateComponentProps witC10_root "b1"
          [("variant", Val.str "outline")]).2
        = getAllComponentIds witC10_root) := by
  have h1 := (claim_C10 witC10_root "zz" [("variant", Val.str "outline")]).1
    (by decide)
  have h2 := (claim_C10 witC10_root "b1" [("variant", Val.str "outline")]).2
    witC10_child (by decide)
  refine ⟨h1, h2.1, ?_, h2.2.2.1⟩
  rw [h2.2.1]
  decide

end BuilderIR
